import Mathlib

/-!
Verification of the `csv-to-md` conversion core (`src/converter.py`) against its
natural-language specification.

The Python source is shallowly embedded. Text is modelled as `List Char`
(Python `str` is a sequence of Unicode code points; the decoders work on
`List Char`-free code-point lists `List Nat` since decoded byte buffers are the
objects of the decoder claims). Byte buffers are `List Nat` with entries < 256.
Fallible Python operations (`bytes.decode` raising `UnicodeDecodeError`) are
modelled with `Option`: `none` means the call raises.

Modelling notes (fixed choices, each flagged where used):
* Python's `utf-16` codec without a byte-order mark uses the platform's native
  byte order; the deployment platforms (x86-64 / AArch64) are little-endian,
  so the no-BOM branch decodes little-endian.
* Case mapping (`str.lower`, `str.casefold`), `str.isdigit` and `str.strip`
  are modelled on the ASCII range (plus the common Unicode whitespace set for
  `strip`); no claim exercises the exotic non-ASCII corners of those methods.
-/

/-- Python text: a list of Unicode code points, as `Char`s. -/
abbrev Str := List Char

/-- Does the list start with the given prefix list? -/
def startsL {α : Type} [DecidableEq α] : List α → List α → Bool
  | _, [] => true
  | [], _ :: _ => false
  | a :: as, b :: bs => a = b && startsL as bs

/-- Whitespace set of Python `str.strip()` / `str.isspace()` (ASCII controls,
space, plus the common Unicode space characters). -/
def wsChars : Str :=
  [' ', '\t', '\n', '\r', '\x0b', '\x0c',
   '\x1c', '\x1d', '\x1e', '\x1f', '\x85', '\xa0',
   ' ', ' ', ' ', ' ', ' ', ' ', ' ',
   ' ', ' ', ' ', ' ', ' ', ' ', ' ',
   ' ', ' ', '　']

/-- Is the character Python whitespace? -/
def isWs (c : Char) : Bool := wsChars.contains c

/-- Python `str.lstrip()` (no argument): drop leading whitespace. -/
def lstripWs (s : Str) : Str := s.dropWhile isWs

/-- Python `str.strip()` (no argument): drop leading and trailing whitespace. -/
def stripWs (s : Str) : Str := ((s.dropWhile isWs).reverse.dropWhile isWs).reverse

/-- Python `str.rstrip()` (no argument): drop trailing whitespace. -/
def rstripWs (s : Str) : Str := (s.reverse.dropWhile isWs).reverse

/-- Python `str.lower()`, modelled on the ASCII range (`Char.toLower` lowers
exactly the ASCII uppercase letters). All strings the source lowers are ASCII
configuration tokens or are compared against ASCII-only lists. -/
def lowerStr (s : Str) : Str := s.map Char.toLower

/-- Python `str.casefold()`, modelled on the ASCII range (for ASCII text,
casefolding agrees with lowercasing). No claim exercises non-ASCII folding. -/
def casefoldStr (s : Str) : Str := s.map Char.toLower

/-- Python `s.split(sep)` for a single-character separator: no collapsing,
`"".split(sep) = [""]`. -/
def splitOnCh (sep : Char) (s : Str) : List Str :=
  s.foldr
    (fun c acc =>
      if c = sep then [] :: acc
      else
        match acc with
        | t :: r => (c :: t) :: r
        | [] => [[c]])
    [[]]

/-- ASCII decimal digit test. -/
def isAsciiDigit (c : Char) : Bool := '0' ≤ c && c ≤ '9'

/-- Starts of the runs of ten consecutive decimal-digit code points
(Unicode general category `Nd`), Unicode 14.0 (CPython 3.11's table).
Every `Nd` character sits in one run `s .. s+9`, with decimal values
`0 .. 9` in order (verified against `unicodedata` run by run). -/
def ndRangeStarts : List Nat :=
  [0x30, 0x660, 0x6F0, 0x7C0, 0x966, 0x9E6, 0xA66, 0xAE6,
    0xB66, 0xBE6, 0xC66, 0xCE6, 0xD66, 0xDE6, 0xE50, 0xED0,
    0xF20, 0x1040, 0x1090, 0x17E0, 0x1810, 0x1946, 0x19D0, 0x1A80,
    0x1A90, 0x1B50, 0x1BB0, 0x1C40, 0x1C50, 0xA620, 0xA8D0, 0xA900,
    0xA9D0, 0xA9F0, 0xAA50, 0xABF0, 0xFF10, 0x104A0, 0x10D30, 0x11066,
    0x110F0, 0x11136, 0x111D0, 0x112F0, 0x11450, 0x114D0, 0x11650, 0x116C0,
    0x11730, 0x118E0, 0x11950, 0x11C50, 0x11D50, 0x11DA0, 0x16A60, 0x16AC0,
    0x16B50, 0x1D7CE, 0x1D7D8, 0x1D7E2, 0x1D7EC, 0x1D7F6, 0x1E140, 0x1E2F0,
    0x1E950, 0x1FBF0]

/-- Code points whose `Numeric_Type` is `Digit` rather than `Decimal`
(Unicode 14.0): `str.isdigit()` accepts them, but `int()` rejects them —
e.g. `'²'` (U+00B2 SUPERSCRIPT TWO). -/
def digitNotDecimal : List Nat :=
  [0xB2, 0xB3, 0xB9, 0x1369, 0x136A, 0x136B, 0x136C, 0x136D,
    0x136E, 0x136F, 0x1370, 0x1371, 0x19DA, 0x2070, 0x2074, 0x2075,
    0x2076, 0x2077, 0x2078, 0x2079, 0x2080, 0x2081, 0x2082, 0x2083,
    0x2084, 0x2085, 0x2086, 0x2087, 0x2088, 0x2089, 0x2460, 0x2461,
    0x2462, 0x2463, 0x2464, 0x2465, 0x2466, 0x2467, 0x2468, 0x2474,
    0x2475, 0x2476, 0x2477, 0x2478, 0x2479, 0x247A, 0x247B, 0x247C,
    0x2488, 0x2489, 0x248A, 0x248B, 0x248C, 0x248D, 0x248E, 0x248F,
    0x2490, 0x24EA, 0x24F5, 0x24F6, 0x24F7, 0x24F8, 0x24F9, 0x24FA,
    0x24FB, 0x24FC, 0x24FD, 0x24FF, 0x2776, 0x2777, 0x2778, 0x2779,
    0x277A, 0x277B, 0x277C, 0x277D, 0x277E, 0x2780, 0x2781, 0x2782,
    0x2783, 0x2784, 0x2785, 0x2786, 0x2787, 0x2788, 0x278A, 0x278B,
    0x278C, 0x278D, 0x278E, 0x278F, 0x2790, 0x2791, 0x2792, 0x10A40,
    0x10A41, 0x10A42, 0x10A43, 0x10E60, 0x10E61, 0x10E62, 0x10E63, 0x10E64,
    0x10E65, 0x10E66, 0x10E67, 0x10E68, 0x11052, 0x11053, 0x11054, 0x11055,
    0x11056, 0x11057, 0x11058, 0x11059, 0x1105A, 0x1F100, 0x1F101, 0x1F102,
    0x1F103, 0x1F104, 0x1F105, 0x1F106, 0x1F107, 0x1F108, 0x1F109, 0x1F10A]

/-- Is the character a decimal digit (category `Nd`)? -/
def isDecimalChar (c : Char) : Bool :=
  ndRangeStarts.any (fun s => s ≤ c.toNat && c.toNat < s + 10)

/-- The decimal value of an `Nd` character (its offset in its run). -/
def decimalVal (c : Char) : Nat :=
  match ndRangeStarts.find? (fun s => s ≤ c.toNat && c.toNat < s + 10) with
  | some s => c.toNat - s
  | none => 0

/-- Does `str.isdigit()` accept the character? (`Numeric_Type` `Decimal`
or `Digit`.) -/
def isDigitChar (c : Char) : Bool :=
  isDecimalChar c || digitNotDecimal.contains c.toNat

/-- Python `str.isdigit()`: nonempty and every character digit-typed. -/
def pyIsDigit (s : Str) : Bool := s ≠ [] && s.all isDigitChar

/-- Python `int(p)` on a token that passed `str.isdigit()`: succeeds exactly
when every character is a *decimal* digit (any script), combining their
decimal values; a digit-but-not-decimal character such as `'²'` raises
`ValueError`. (`int()` would additionally accept signs, whitespace and
underscores, which `isdigit` has already excluded here; CPython ≥ 3.11's
4300-digit conversion limit is not modelled.) -/
def pyIntDigits (s : Str) : Option Nat :=
  if s ≠ [] && s.all isDecimalChar then
    some (s.foldl (fun n c => n * 10 + decimalVal c) 0)
  else none

/-- `int(p)` over a token list, raising (`none`) at the first failure, as
the appending loop of `_parse_positions` does. -/
def mapIntDigits : List Str → Option (List Nat)
  | [] => some []
  | t :: ts =>
    match pyIntDigits t with
    | some n => (mapIntDigits ts).map (fun l => n :: l)
    | none => none

/-- Numeric value of an ASCII digit string. -/
def digitsToNat (s : Str) : Nat :=
  s.foldl (fun n c => n * 10 + (c.toNat - '0'.toNat)) 0

/-- Decimal rendering of a natural number (auxiliary, fuelled for structural
recursion; fuel `n+1` always suffices). -/
def natToStrAux : Nat → Nat → Str
  | 0, _ => []
  | f + 1, n =>
    if n < 10 then [Char.ofNat (48 + n)]
    else natToStrAux f (n / 10) ++ [Char.ofNat (48 + n % 10)]

/-- Decimal rendering of a natural number, as Python `str(n)` for `n ≥ 0`. -/
def natToStr (n : Nat) : Str := natToStrAux (n + 1) n

/-- Python `s.replace(old, new)` for a single-character `old`: each occurrence
of the character is replaced by the (possibly empty) string `new`. -/
def replaceCh (old : Char) (new : Str) (s : Str) : Str :=
  s.flatMap (fun c => if c = old then new else [c])

/-! ## Decoder (`src/converter.py` lines 8–45)

Byte buffers are `List Nat` (each entry < 256), decoded text is `List Nat`
(code points). `none` models a raised `UnicodeDecodeError`. -/

/-- A Unicode scalar value: what strict UTF-8/UTF-16 decoding can produce and
what `bytes.decode`-able Python text consists of. -/
def ValidScalar (c : Nat) : Prop := c < 0x110000 ∧ (c < 0xD800 ∨ 0xE000 ≤ c)

instance (c : Nat) : Decidable (ValidScalar c) := by unfold ValidScalar; infer_instance

/-- UTF-8 encoding of one scalar value. -/
def utf8EncodeChar (c : Nat) : List Nat :=
  if c < 0x80 then [c]
  else if c < 0x800 then [0xC0 + c / 64, 0x80 + c % 64]
  else if c < 0x10000 then
    [0xE0 + c / 4096, 0x80 + c / 64 % 64, 0x80 + c % 64]
  else
    [0xF0 + c / 262144, 0x80 + c / 4096 % 64, 0x80 + c / 64 % 64, 0x80 + c % 64]

/-- UTF-8 encoding of a code-point sequence. -/
def utf8Encode (cs : List Nat) : List Nat := cs.flatMap utf8EncodeChar

/-- One step of strict UTF-8 decoding (CPython's `bytes.decode("utf-8")`):
decode the first scalar of the buffer, returning it and the remaining bytes,
or `none` on an ill-formed prefix. Rejects overlong forms, surrogates, values
above U+10FFFF and truncated sequences. The second/third/fourth byte ranges
follow the standard table: lead `0xE0` restricts byte 2 to `A0..BF`, lead
`0xED` to `80..9F` (no surrogates), lead `0xF0` to `90..BF`, lead `0xF4` to
`80..8F`. -/
def utf8DecodeOne : List Nat → Option (Nat × List Nat)
  | [] => none
  | b :: bs =>
    if b < 0x80 then some (b, bs)
    else if b < 0xC2 then none
    else if b < 0xE0 then
      match bs with
      | b1 :: t =>
        if 0x80 ≤ b1 ∧ b1 < 0xC0 then some ((b - 0xC0) * 64 + (b1 - 0x80), t)
        else none
      | [] => none
    else if b < 0xF0 then
      match bs with
      | b1 :: b2 :: t =>
        if ((if b = 0xE0 then 0xA0 else 0x80) ≤ b1 ∧
              b1 < (if b = 0xED then 0xA0 else 0xC0)) ∧
            (0x80 ≤ b2 ∧ b2 < 0xC0) then
          some ((b - 0xE0) * 4096 + (b1 - 0x80) * 64 + (b2 - 0x80), t)
        else none
      | _ => none
    else if b < 0xF5 then
      match bs with
      | b1 :: b2 :: b3 :: t =>
        if ((if b = 0xF0 then 0x90 else 0x80) ≤ b1 ∧
              b1 < (if b = 0xF4 then 0x90 else 0xC0)) ∧
            (0x80 ≤ b2 ∧ b2 < 0xC0) ∧ (0x80 ≤ b3 ∧ b3 < 0xC0) then
          some ((b - 0xF0) * 262144 + (b1 - 0x80) * 4096 +
              (b2 - 0x80) * 64 + (b3 - 0x80), t)
        else none
      | _ => none
    else none

/-- Strict UTF-8 decoding loop. Fuelled for structural recursion: each step
consumes at least one byte, so fuel `length` suffices; exhausted fuel (which
never happens when started with enough) answers `none`. -/
def utf8DecodeFrom : Nat → List Nat → Option (List Nat)
  | _, [] => some []
  | 0, _ :: _ => none
  | f + 1, b :: bs =>
    match utf8DecodeOne (b :: bs) with
    | some (c, rest) => (utf8DecodeFrom f rest).map (fun t => c :: t)
    | none => none

/-- `bytes.decode("utf-8")`. -/
def utf8Decode (bs : List Nat) : Option (List Nat) := utf8DecodeFrom bs.length bs

/-- `bytes.decode("utf-8-sig")`: strip one leading UTF-8 byte-order mark
(`EF BB BF`) if present, then strict UTF-8. -/
def utf8SigDecode (bs : List Nat) : Option (List Nat) :=
  if startsL bs [0xEF, 0xBB, 0xBF] then utf8Decode (bs.drop 3) else utf8Decode bs

/-- Group bytes into 16-bit units, little-endian. Odd trailing byte: error
(`UnicodeDecodeError: truncated data`). -/
def bytesToUnitsLE : List Nat → Option (List Nat)
  | [] => some []
  | [_] => none
  | b0 :: b1 :: r => (bytesToUnitsLE r).map (fun t => (b0 + 256 * b1) :: t)

/-- Group bytes into 16-bit units, big-endian. -/
def bytesToUnitsBE : List Nat → Option (List Nat)
  | [] => some []
  | [_] => none
  | b0 :: b1 :: r => (bytesToUnitsBE r).map (fun t => (b0 * 256 + b1) :: t)

/-- Combine UTF-16 code units into code points: a high surrogate must be
followed by a low surrogate; a lone surrogate is an error. -/
def utf16Combine : List Nat → Option (List Nat)
  | [] => some []
  | u :: r =>
    if u < 0xD800 ∨ 0xE000 ≤ u then (utf16Combine r).map (fun t => u :: t)
    else if u < 0xDC00 then
      match r with
      | u2 :: r2 =>
        if 0xDC00 ≤ u2 ∧ u2 < 0xE000 then
          (utf16Combine r2).map
            (fun t => (0x10000 + (u - 0xD800) * 0x400 + (u2 - 0xDC00)) :: t)
        else none
      | [] => none
    else none

/-- `bytes.decode("utf-16")`: a leading BOM selects the byte order and is
stripped; without a BOM the platform's native order is used (little-endian on
the x86-64/AArch64 hosts this program runs on). -/
def utf16Decode (bs : List Nat) : Option (List Nat) :=
  if startsL bs [0xFF, 0xFE] then
    (bytesToUnitsLE (bs.drop 2)).bind utf16Combine
  else if startsL bs [0xFE, 0xFF] then
    (bytesToUnitsBE (bs.drop 2)).bind utf16Combine
  else
    (bytesToUnitsLE bs).bind utf16Combine

/-- The cp1250 (windows-1250) table for bytes `0x80..0xFF`, from the Unicode
mapping CP1250.TXT; `none` entries are the five unassigned bytes, on which
`bytes.decode("cp1250")` raises. -/
def cp1250High : Nat → Option Nat
  | 0x80 => some 0x20AC | 0x81 => none        | 0x82 => some 0x201A | 0x83 => none
  | 0x84 => some 0x201E | 0x85 => some 0x2026 | 0x86 => some 0x2020 | 0x87 => some 0x2021
  | 0x88 => none        | 0x89 => some 0x2030 | 0x8A => some 0x0160 | 0x8B => some 0x2039
  | 0x8C => some 0x015A | 0x8D => some 0x0164 | 0x8E => some 0x017D | 0x8F => some 0x0179
  | 0x90 => none        | 0x91 => some 0x2018 | 0x92 => some 0x2019 | 0x93 => some 0x201C
  | 0x94 => some 0x201D | 0x95 => some 0x2022 | 0x96 => some 0x2013 | 0x97 => some 0x2014
  | 0x98 => none        | 0x99 => some 0x2122 | 0x9A => some 0x0161 | 0x9B => some 0x203A
  | 0x9C => some 0x015B | 0x9D => some 0x0165 | 0x9E => some 0x017E | 0x9F => some 0x017A
  | 0xA0 => some 0x00A0 | 0xA1 => some 0x02C7 | 0xA2 => some 0x02D8 | 0xA3 => some 0x0141
  | 0xA4 => some 0x00A4 | 0xA5 => some 0x0104 | 0xA6 => some 0x00A6 | 0xA7 => some 0x00A7
  | 0xA8 => some 0x00A8 | 0xA9 => some 0x00A9 | 0xAA => some 0x015E | 0xAB => some 0x00AB
  | 0xAC => some 0x00AC | 0xAD => some 0x00AD | 0xAE => some 0x00AE | 0xAF => some 0x017B
  | 0xB0 => some 0x00B0 | 0xB1 => some 0x00B1 | 0xB2 => some 0x02DB | 0xB3 => some 0x0142
  | 0xB4 => some 0x00B4 | 0xB5 => some 0x00B5 | 0xB6 => some 0x00B6 | 0xB7 => some 0x00B7
  | 0xB8 => some 0x00B8 | 0xB9 => some 0x0105 | 0xBA => some 0x015F | 0xBB => some 0x00BB
  | 0xBC => some 0x013D | 0xBD => some 0x02DD | 0xBE => some 0x013E | 0xBF => some 0x017C
  | 0xC0 => some 0x0154 | 0xC1 => some 0x00C1 | 0xC2 => some 0x00C2 | 0xC3 => some 0x0102
  | 0xC4 => some 0x00C4 | 0xC5 => some 0x0139 | 0xC6 => some 0x0106 | 0xC7 => some 0x00C7
  | 0xC8 => some 0x010C | 0xC9 => some 0x00C9 | 0xCA => some 0x0118 | 0xCB => some 0x00CB
  | 0xCC => some 0x011A | 0xCD => some 0x00CD | 0xCE => some 0x00CE | 0xCF => some 0x010E
  | 0xD0 => some 0x0110 | 0xD1 => some 0x0143 | 0xD2 => some 0x0147 | 0xD3 => some 0x00D3
  | 0xD4 => some 0x00D4 | 0xD5 => some 0x0150 | 0xD6 => some 0x00D6 | 0xD7 => some 0x00D7
  | 0xD8 => some 0x0158 | 0xD9 => some 0x016E | 0xDA => some 0x00DA | 0xDB => some 0x0170
  | 0xDC => some 0x00DC | 0xDD => some 0x00DD | 0xDE => some 0x0162 | 0xDF => some 0x00DF
  | 0xE0 => some 0x0155 | 0xE1 => some 0x00E1 | 0xE2 => some 0x00E2 | 0xE3 => some 0x0103
  | 0xE4 => some 0x00E4 | 0xE5 => some 0x013A | 0xE6 => some 0x0107 | 0xE7 => some 0x00E7
  | 0xE8 => some 0x010D | 0xE9 => some 0x00E9 | 0xEA => some 0x0119 | 0xEB => some 0x00EB
  | 0xEC => some 0x011B | 0xED => some 0x00ED | 0xEE => some 0x00EE | 0xEF => some 0x010F
  | 0xF0 => some 0x0111 | 0xF1 => some 0x0144 | 0xF2 => some 0x0148 | 0xF3 => some 0x00F3
  | 0xF4 => some 0x00F4 | 0xF5 => some 0x0151 | 0xF6 => some 0x00F6 | 0xF7 => some 0x00F7
  | 0xF8 => some 0x0159 | 0xF9 => some 0x016F | 0xFA => some 0x00FA | 0xFB => some 0x0171
  | 0xFC => some 0x00FC | 0xFD => some 0x00FD | 0xFE => some 0x0163 | 0xFF => some 0x02D9
  | _ => none

/-- `bytes.decode("cp1250")`: bytes below 0x80 map to themselves; high bytes
map through the table; the five unassigned bytes raise. -/
def cp1250Decode : List Nat → Option (List Nat)
  | [] => some []
  | b :: r =>
    if b < 0x80 then (cp1250Decode r).map (fun t => b :: t)
    else
      match cp1250High b with
      | some c => (cp1250Decode r).map (fun t => c :: t)
      | none => none

/-- One step of `bytes.decode("utf-8", errors="replace")`: decode the first
character, or consume the maximal subpart of an ill-formed sequence and emit
U+FFFD (CPython's replacement policy). Returns the emitted code point and the
number of bytes consumed (always ≥ 1 on nonempty input). -/
def utf8ReplaceStep (b : Nat) (bs : List Nat) : Nat × Nat :=
  if b < 0x80 then (b, 1)
  else if b < 0xC2 then (0xFFFD, 1)
  else if b < 0xE0 then
    match bs with
    | b1 :: _ =>
      if 0x80 ≤ b1 ∧ b1 < 0xC0 then ((b - 0xC0) * 64 + (b1 - 0x80), 2)
      else (0xFFFD, 1)
    | [] => (0xFFFD, 1)
  else if b < 0xF0 then
    match bs with
    | b1 :: rest1 =>
      if (if b = 0xE0 then 0xA0 else 0x80) ≤ b1 ∧
          b1 < (if b = 0xED then 0xA0 else 0xC0) then
        match rest1 with
        | b2 :: _ =>
          if 0x80 ≤ b2 ∧ b2 < 0xC0 then
            ((b - 0xE0) * 4096 + (b1 - 0x80) * 64 + (b2 - 0x80), 3)
          else (0xFFFD, 2)
        | [] => (0xFFFD, 2)
      else (0xFFFD, 1)
    | [] => (0xFFFD, 1)
  else if b < 0xF5 then
    match bs with
    | b1 :: rest1 =>
      if (if b = 0xF0 then 0x90 else 0x80) ≤ b1 ∧
          b1 < (if b = 0xF4 then 0x90 else 0xC0) then
        match rest1 with
        | b2 :: rest2 =>
          if 0x80 ≤ b2 ∧ b2 < 0xC0 then
            match rest2 with
            | b3 :: _ =>
              if 0x80 ≤ b3 ∧ b3 < 0xC0 then
                ((b - 0xF0) * 262144 + (b1 - 0x80) * 4096 +
                    (b2 - 0x80) * 64 + (b3 - 0x80), 4)
              else (0xFFFD, 3)
            | [] => (0xFFFD, 3)
          else (0xFFFD, 2)
        | [] => (0xFFFD, 2)
      else (0xFFFD, 1)
    | [] => (0xFFFD, 1)
  else (0xFFFD, 1)

/-- `bytes.decode("utf-8", errors="replace")`: total lossy decoding (fuelled;
each step consumes at least one byte, so fuel `length` suffices). -/
def utf8ReplaceAux : Nat → List Nat → List Nat
  | 0, _ => []
  | _ + 1, [] => []
  | fuel + 1, b :: bs =>
    let (c, k) := utf8ReplaceStep b bs
    c :: utf8ReplaceAux fuel (List.drop (k - 1) bs)

/-- `bytes.decode("utf-8", errors="replace")`. -/
def utf8ReplaceDecode (bs : List Nat) : List Nat := utf8ReplaceAux bs.length bs

/-- `decode_csv_bytes` (`src/converter.py` lines 8–31). `none` models a
raised `UnicodeDecodeError`. -/
def decode_csv_bytes (raw : List Nat) : Option (List Nat) :=
  -- UTF-16 BOMs: `raw.startswith(b"\xff\xfe") or raw.startswith(b"\xfe\xff")`
  if startsL raw [0xFF, 0xFE] || startsL raw [0xFE, 0xFF] then
    utf16Decode raw
  else
    match utf8SigDecode raw with
    | some text =>
      -- `if "\x00" in text: return raw.decode("utf-16")`
      if 0 ∈ text then utf16Decode raw else some text
    | none =>
      match cp1250Decode raw with
      | some t => some t
      | none => some (utf8ReplaceDecode raw)

/-- `decode_csv_bytes_with_encoding` (`src/converter.py` lines 34–45).
The final `raw.decode(enc, errors="replace")` branch for codec names other
than the four recognized families is outside the model (CPython looks the
codec up by name; an unknown name raises `LookupError`); it is represented as
`none` and no claim exercises it. -/
def decode_csv_bytes_with_encoding (raw : List Nat) (encoding : Str) : Option (List Nat) :=
  let enc := lowerStr (stripWs (if encoding = [] then "auto".toList else encoding))
  if enc = "auto".toList then decode_csv_bytes raw
  else if enc = "utf-16".toList ∨ enc = "utf16".toList then utf16Decode raw
  else if enc = "utf-8".toList ∨ enc = "utf8".toList then utf8SigDecode raw
  else if enc = "cp1250".toList ∨ enc = "windows-1250".toList ∨ enc = "win1250".toList then
    cp1250Decode raw
  else none

/-- The UTF-8 encoding of a scalar value is nonempty and its first byte is at
most `0xF4` (in particular never `0xFE`/`0xFF`). -/
theorem utf8EncodeChar_head (c : Nat) (h : ValidScalar c) :
    ∃ b t, utf8EncodeChar c = b :: t ∧ b < 0xF5 := by
  obtain ⟨h1, _⟩ := h
  unfold utf8EncodeChar
  split_ifs with ha hb hc
  · exact ⟨_, _, rfl, by omega⟩
  · exact ⟨_, _, rfl, by omega⟩
  · exact ⟨_, _, rfl, by omega⟩
  · exact ⟨_, _, rfl, by omega⟩

/-- Decoding the encoding of one valid scalar consumes exactly those bytes
and yields that scalar back. -/
theorem utf8DecodeOne_encodeChar (c : Nat) (h : ValidScalar c) (rest : List Nat) :
    utf8DecodeOne (utf8EncodeChar c ++ rest) = some (c, rest) := by
  obtain ⟨h1, h2⟩ := h
  by_cases hc1 : c < 0x80
  · rw [utf8EncodeChar, if_pos hc1]
    show utf8DecodeOne (c :: rest) = _
    rw [utf8DecodeOne.eq_def]
    dsimp only
    rw [if_pos hc1]
  · by_cases hc2 : c < 0x800
    · rw [utf8EncodeChar, if_neg hc1, if_pos hc2]
      show utf8DecodeOne ((0xC0 + c / 64) :: (0x80 + c % 64) :: rest) = _
      rw [utf8DecodeOne.eq_def]
      dsimp only
      rw [if_neg (by omega), if_neg (by omega), if_pos (by omega), if_pos (by omega)]
      have hv : (0xC0 + c / 64 - 0xC0) * 64 + (0x80 + c % 64 - 0x80) = c := by omega
      rw [hv]
    · by_cases hc3 : c < 0x10000
      · rw [utf8EncodeChar, if_neg hc1, if_neg hc2, if_pos hc3]
        show utf8DecodeOne
            ((0xE0 + c / 4096) :: (0x80 + c / 64 % 64) :: (0x80 + c % 64) :: rest) = _
        rw [utf8DecodeOne.eq_def]
        dsimp only
        rw [if_neg (by omega), if_neg (by omega), if_neg (by omega), if_pos (by omega),
          if_pos (by split_ifs <;> omega)]
        have hv : (0xE0 + c / 4096 - 0xE0) * 4096 + (0x80 + c / 64 % 64 - 0x80) * 64 +
            (0x80 + c % 64 - 0x80) = c := by omega
        rw [hv]
      · rw [utf8EncodeChar, if_neg hc1, if_neg hc2, if_neg hc3]
        show utf8DecodeOne
            ((0xF0 + c / 262144) :: (0x80 + c / 4096 % 64) ::
              (0x80 + c / 64 % 64) :: (0x80 + c % 64) :: rest) = _
        rw [utf8DecodeOne.eq_def]
        dsimp only
        rw [if_neg (by omega), if_neg (by omega), if_neg (by omega), if_neg (by omega),
          if_pos (by omega), if_pos (by split_ifs <;> omega)]
        have hv : (0xF0 + c / 262144 - 0xF0) * 262144 + (0x80 + c / 4096 % 64 - 0x80) * 4096 +
            (0x80 + c / 64 % 64 - 0x80) * 64 + (0x80 + c % 64 - 0x80) = c := by omega
        rw [hv]

/-- The decoding loop inverts encoding, given at least as much fuel as there
are bytes. -/
theorem utf8DecodeFrom_encode (cs : List Nat) :
    ∀ f : Nat, (∀ c ∈ cs, ValidScalar c) → (utf8Encode cs).length ≤ f →
      utf8DecodeFrom f (utf8Encode cs) = some cs := by
  induction cs with
  | nil =>
    intro f _ _
    show utf8DecodeFrom f [] = some []
    cases f <;> rfl
  | cons c cs ih =>
    intro f h hf
    have hc := h c (List.mem_cons_self c cs)
    have hcs : ∀ x ∈ cs, ValidScalar x := fun x hx => h x (List.mem_cons_of_mem c hx)
    obtain ⟨b, t, he, _⟩ := utf8EncodeChar_head c hc
    have henc : utf8Encode (c :: cs) = utf8EncodeChar c ++ utf8Encode cs := rfl
    have hlen : (utf8Encode cs).length + 1 ≤ f := by
      have : (utf8Encode (c :: cs)).length = (utf8EncodeChar c).length + (utf8Encode cs).length := by
        rw [henc, List.length_append]
      have hpos : 1 ≤ (utf8EncodeChar c).length := by rw [he]; simp
      omega
    obtain ⟨f', rfl⟩ : ∃ f', f = f' + 1 := ⟨f - 1, by omega⟩
    rw [henc, he]
    show utf8DecodeFrom (f' + 1) (b :: (t ++ utf8Encode cs)) = some (c :: cs)
    rw [utf8DecodeFrom.eq_def]
    dsimp only
    have hone : utf8DecodeOne (b :: (t ++ utf8Encode cs)) = some (c, utf8Encode cs) := by
      have := utf8DecodeOne_encodeChar c hc (utf8Encode cs)
      rwa [he] at this
    rw [hone]
    dsimp only
    rw [ih f' hcs (by omega)]
    rfl

/-- Strict UTF-8 decoding is a left inverse of encoding on valid scalars. -/
theorem utf8Decode_encode (cs : List Nat) (h : ∀ c ∈ cs, ValidScalar c) :
    utf8Decode (utf8Encode cs) = some cs :=
  utf8DecodeFrom_encode cs (utf8Encode cs).length h le_rfl

/-- The encoding of a valid scalar sequence never starts with a UTF-16
byte-order mark (no UTF-8 lead byte is `0xFE` or `0xFF`). -/
theorem utf8Encode_no_utf16_bom (cs : List Nat) (h : ∀ c ∈ cs, ValidScalar c) :
    startsL (utf8Encode cs) [0xFF, 0xFE] = false ∧
      startsL (utf8Encode cs) [0xFE, 0xFF] = false := by
  cases cs with
  | nil => exact ⟨rfl, rfl⟩
  | cons c cs =>
    obtain ⟨b, t, he, hb⟩ := utf8EncodeChar_head c (h c (List.mem_cons_self c cs))
    show startsL (utf8EncodeChar c ++ utf8Encode cs) _ = false ∧
      startsL (utf8EncodeChar c ++ utf8Encode cs) _ = false
    rw [he]
    show startsL (b :: (t ++ utf8Encode cs)) _ = false ∧
      startsL (b :: (t ++ utf8Encode cs)) _ = false
    constructor
    · show (decide (b = 0xFF) && startsL (t ++ utf8Encode cs) [0xFE]) = false
      have hd : decide (b = 0xFF) = false := by simp; omega
      rw [hd, Bool.false_and]
    · show (decide (b = 0xFE) && startsL (t ++ utf8Encode cs) [0xFF]) = false
      have hd : decide (b = 0xFE) = false := by simp; omega
      rw [hd, Bool.false_and]

/-- Python `s.replace("\r\n", " ")`: non-overlapping left-to-right
replacement of the two-character sequence CR LF by one space. -/
def replCrlf : Str → Str
  | [] => []
  | [c] => [c]
  | c1 :: c2 :: r =>
    if c1 = '\r' ∧ c2 = '\n' then ' ' :: replCrlf r
    else c1 :: replCrlf (c2 :: r)

/-- `_escape_md_cell` (`src/converter.py` lines 48–58): remove NULs, escape
pipes, then collapse CRLF, LF and CR to single spaces, in that order. -/
def escapeMdCell (value : Str) : Str :=
  replaceCh '\r' [' ']
    (replaceCh '\n' [' ']
      (replCrlf
        (replaceCh '|' ['\\', '|']
          (replaceCh '\x00' [] value))))

/-- `_clean_header` (`src/converter.py` lines 71–72): remove NULs, strip all
leading U+FEFF byte-order marks (`lstrip` strips every leading character from
its argument set), then strip surrounding whitespace. -/
def cleanHeader (h : Str) : Str :=
  stripWs ((replaceCh '\x00' [] h).dropWhile (fun c => c = '﻿'))

/-- `_normalize_preamble` (`src/converter.py` lines 61–68). -/
def normalizePreamble (preamble : Str) : Str :=
  if preamble = [] then []
  else
    let p1 := if startsL preamble.reverse ['\n'] then preamble else preamble ++ ['\n']
    if startsL p1.reverse ['\n', '\n'] then p1 else p1 ++ ['\n']

/-- Scanner for "every pipe is immediately preceded by a backslash": the flag
records whether the previous character was a backslash. -/
def pipesEscapedAux : Bool → Str → Bool
  | _, [] => true
  | prevBS, c :: cs =>
    (if c = '|' then prevBS else true) && pipesEscapedAux (c = '\\') cs

/-- Every `|` in the string is immediately preceded by a `\`. -/
def pipesEscaped (s : Str) : Bool := pipesEscapedAux false s

/-- Membership in a single-character replacement comes from the original
string or from the replacement. -/
theorem mem_replaceCh {c old : Char} {new s : Str} (h : c ∈ replaceCh old new s) :
    c ∈ s ∨ c ∈ new := by
  rw [replaceCh, List.mem_flatMap] at h
  obtain ⟨a, ha, hc⟩ := h
  by_cases hao : a = old
  · rw [if_pos hao] at hc
    exact Or.inr hc
  · rw [if_neg hao] at hc
    rw [List.mem_singleton] at hc
    exact Or.inl (hc ▸ ha)

/-- A replaced-away character that does not occur in the replacement is gone. -/
theorem not_mem_replaceCh_self {old : Char} {new s : Str} (h : old ∉ new) :
    old ∉ replaceCh old new s := by
  intro hmem
  rw [replaceCh, List.mem_flatMap] at hmem
  obtain ⟨a, _, hc⟩ := hmem
  by_cases hao : a = old
  · rw [if_pos hao] at hc
    exact h hc
  · rw [if_neg hao] at hc
    rw [List.mem_singleton] at hc
    exact hao (hc ▸ rfl)

/-- Membership in `replCrlf` comes from the original string or is a space. -/
theorem mem_replCrlf {c : Char} : ∀ {s : Str}, c ∈ replCrlf s → c ∈ s ∨ c = ' '
  | [], h => Or.inl h
  | [_], h => Or.inl h
  | c1 :: c2 :: r, h => by
    rw [replCrlf] at h
    by_cases hg : c1 = '\r' ∧ c2 = '\n'
    · rw [if_pos hg] at h
      rcases List.mem_cons.mp h with hsp | hr
      · exact Or.inr hsp
      · rcases mem_replCrlf hr with hs | hsp
        · exact Or.inl (List.mem_cons_of_mem _ (List.mem_cons_of_mem _ hs))
        · exact Or.inr hsp
    · rw [if_neg hg] at h
      rcases List.mem_cons.mp h with hc1 | hr
      · exact Or.inl (List.mem_cons.mpr (Or.inl hc1))
      · rcases mem_replCrlf hr with hs | hsp
        · exact Or.inl (List.mem_cons_of_mem _ hs)
        · exact Or.inr hsp

/-- After escaping pipes, every pipe is preceded by a backslash, whatever the
initial scanner flag. -/
theorem pipesEscapedAux_replPipe (s : Str) :
    ∀ b, pipesEscapedAux b (replaceCh '|' ['\\', '|'] s) = true := by
  induction s with
  | nil => intro b; rfl
  | cons c cs ih =>
    intro b
    show pipesEscapedAux b ((if c = '|' then ['\\', '|'] else [c]) ++ _) = true
    by_cases hc : c = '|'
    · rw [if_pos hc]
      show pipesEscapedAux b ('\\' :: '|' :: _) = true
      rw [pipesEscapedAux, if_neg (by decide : ¬(('\\' : Char) = '|')),
        (by decide : decide (('\\' : Char) = '\\') = true), Bool.true_and]
      rw [pipesEscapedAux, if_pos rfl,
        (by decide : decide (('|' : Char) = '\\') = false), Bool.true_and]
      exact ih false
    · rw [if_neg hc]
      show pipesEscapedAux b (c :: _) = true
      rw [pipesEscapedAux, if_neg hc, Bool.true_and]
      exact ih (decide (c = '\\'))

/-- Replacing a character other than pipe and backslash by a space preserves
the pipes-escaped property. -/
theorem pipesEscapedAux_replaceCh {old : Char} (h1 : old ≠ '|') (h2 : old ≠ '\\') :
    ∀ (s : Str) (b : Bool), pipesEscapedAux b s = true →
      pipesEscapedAux b (replaceCh old [' '] s) = true := by
  intro s
  induction s with
  | nil => intro b _; rfl
  | cons c cs ih =>
    intro b hb
    rw [pipesEscapedAux, Bool.and_eq_true] at hb
    obtain ⟨hhead, htail⟩ := hb
    show pipesEscapedAux b ((if c = old then [' '] else [c]) ++ _) = true
    by_cases hc : c = old
    · rw [if_pos hc]
      show pipesEscapedAux b (' ' :: _) = true
      rw [pipesEscapedAux, if_neg (by decide : ¬((' ' : Char) = '|')), Bool.true_and,
        (by decide : decide ((' ' : Char) = '\\') = false)]
      rw [decide_eq_false (show ¬(c = '\\') from fun hh => h2 (hc ▸ hh))] at htail
      exact ih false htail
    · rw [if_neg hc]
      show pipesEscapedAux b (c :: _) = true
      rw [pipesEscapedAux, hhead, Bool.true_and]
      exact ih (decide (c = '\\')) htail

/-- Collapsing CRLF preserves the pipes-escaped property. -/
theorem pipesEscapedAux_replCrlf (s : Str) :
    ∀ b : Bool, pipesEscapedAux b s = true → pipesEscapedAux b (replCrlf s) = true := by
  induction s using replCrlf.induct with
  | case1 => intro b h; exact h
  | case2 c => intro b h; exact h
  | case3 c1 c2 r hg ih =>
    intro b h
    rw [pipesEscapedAux, Bool.and_eq_true] at h
    obtain ⟨hhead, htail⟩ := h
    rw [pipesEscapedAux, Bool.and_eq_true] at htail
    obtain ⟨hhead2, htail2⟩ := htail
    obtain ⟨hc1, hc2⟩ := hg
    subst hc1; subst hc2
    rw [replCrlf, if_pos ⟨rfl, rfl⟩]
    rw [pipesEscapedAux, if_neg (by decide : ¬((' ' : Char) = '|')), Bool.true_and,
      (by decide : decide ((' ' : Char) = '\\') = false)]
    rw [(by decide : decide (('\n' : Char) = '\\') = false)] at htail2
    exact ih false htail2
  | case4 c1 c2 r hg ih =>
    intro b h
    rw [pipesEscapedAux, Bool.and_eq_true] at h
    obtain ⟨hhead, htail⟩ := h
    rw [replCrlf, if_neg hg]
    rw [pipesEscapedAux, hhead, Bool.true_and]
    exact ih (decide (c1 = '\\')) htail

/-- C7: escaped cells contain no NUL, no LF, no CR, every pipe is escaped
with a backslash, and the two cited examples render as stated
(`"a|b" ↦ "a\|b"`, an embedded newline becomes a single space). -/
theorem C7_cell_escaping :
    escapeMdCell "a|b".toList = "a\\|b".toList ∧
      escapeMdCell "a\nb".toList = "a b".toList ∧
      ∀ s : Str, '\x00' ∉ escapeMdCell s ∧ '\n' ∉ escapeMdCell s ∧
        '\r' ∉ escapeMdCell s ∧ pipesEscaped (escapeMdCell s) = true := by
  refine ⟨by decide, by decide, ?_⟩
  intro s
  rw [escapeMdCell]
  refine ⟨?_, ?_, ?_, ?_⟩
  · intro hmem
    rcases mem_replaceCh hmem with h5 | h5
    · rcases mem_replaceCh h5 with h4 | h4
      · rcases mem_replCrlf h4 with h3 | h3
        · rcases mem_replaceCh h3 with h2 | h2
          · exact not_mem_replaceCh_self (by decide) h2
          · simp at h2
        · simp at h3
      · simp at h4
    · simp at h5
  · intro hmem
    rcases mem_replaceCh hmem with h5 | h5
    · exact not_mem_replaceCh_self (by decide) h5
    · simp at h5
  · exact not_mem_replaceCh_self (by decide)
  · apply pipesEscapedAux_replaceCh (by decide) (by decide)
    apply pipesEscapedAux_replaceCh (by decide) (by decide)
    apply pipesEscapedAux_replCrlf
    exact pipesEscapedAux_replPipe _ false

/-! ## Column projection (`src/converter.py` lines 93–102, 179–190) -/

/-- `_parse_positions` (`src/converter.py` lines 93–102): split on commas,
strip each token, drop empty tokens, skip tokens failing `p.isdigit()`,
convert the rest with `int(p)`. Because `isdigit` also accepts
digit-but-not-decimal characters on which `int` raises, the conversion can
raise an uncaught `ValueError`: the outer `none` models that exception,
while `some none` is the `None` the function returns for empty input or no
numeric tokens. The `positions: str | None` parameter's `None` is modelled
by the empty string — both are falsy to `if not positions`. -/
def parsePositions (positions : Str) : Option (Option (List Nat)) :=
  if positions = [] then some none
  else
    let parts := ((splitOnCh ',' positions).map stripWs).filter (fun p => p ≠ [])
    match mapIntDigits (parts.filter pyIsDigit) with
    | none => none
    | some out => some (if out = [] then none else some out)

/-- `_apply_positions` (`src/converter.py` lines 179–190): drop non-positive
positions, convert to 0-based, drop positions beyond the header count; an
empty remainder passes headers and rows through unchanged, otherwise headers
and rows are re-projected in that index order (`headers[i]` is always in
range there, and short rows read as empty strings, hence `getD`). -/
def applyPositions (headers : List Str) (rows : List (List Str))
    (positions1based : Option (List Nat)) : List Str × List (List Str) :=
  match positions1based with
  | none => (headers, rows)
  | some ps =>
    let idxs := (((ps.filter (fun p => 0 < p)).map (fun p => p - 1)).filter
      (fun i => i < headers.length))
    if idxs = [] then (headers, rows)
    else (idxs.map (fun i => headers.getD i []),
      rows.map (fun r => idxs.map (fun i => r.getD i [])))

/-- The claim's own description of projection: parse the comma-separated
string, discard non-numeric tokens (tokens that do not denote a number) and
out-of-range 1-based indices; if no valid positions remain, pass through
unchanged; otherwise re-project headers and every row to exactly the valid
index order, with missing cells read as empty strings. -/
def specValidPositions (headerCount : Nat) (positions : Str) : List Nat :=
  (((splitOnCh ',' positions).map stripWs).filterMap pyIntDigits).filter
    (fun p => 1 ≤ p ∧ p ≤ headerCount)

/-- Projection as the claim describes it (reference definition for C5). -/
def specProject (headers : List Str) (rows : List (List Str)) (positions : Str) :
    List Str × List (List Str) :=
  let valid := specValidPositions headers.length positions
  if valid = [] then (headers, rows)
  else (valid.map (fun p => headers.getD (p - 1) []),
    rows.map (fun r => valid.map (fun p => r.getD (p - 1) [])))

/-- C5: the claim says non-numeric tokens are discarded, and that with no
valid positions the projection passes headers and rows through unchanged —
in particular it never raises. The code guards `int(p)` with `p.isdigit()`,
but `isdigit` also accepts digit characters that have no decimal value: on
the token `"²"` (SUPERSCRIPT TWO) the guard passes and `int("²")` raises an
uncaught `ValueError` instead of the token being discarded. (Conversely,
`int` reads non-ASCII decimal digits, so `"١٢"` is accepted as position 12.)
The last two conjuncts state the claim's expectation at the failing input —
headers and rows unchanged — and check the claim's own `"2,1"` example,
which the code does satisfy. -/
theorem C5_positions_superscript_raises :
    pyIsDigit "²".toList = true ∧
      pyIntDigits "²".toList = none ∧
      parsePositions "²".toList = none ∧
      parsePositions "١٢".toList = some (some [12]) ∧
      specProject ["A".toList, "B".toList, "C".toList]
          [["1".toList, "2".toList, "3".toList]] "²".toList =
        (["A".toList, "B".toList, "C".toList], [["1".toList, "2".toList, "3".toList]]) ∧
      parsePositions "2,1".toList = some (some [2, 1]) ∧
      applyPositions ["A".toList, "B".toList, "C".toList]
          [["1".toList, "2".toList, "3".toList], ["4".toList, "5".toList]]
          (some [2, 1]) =
        (["B".toList, "A".toList], [["2".toList, "1".toList], ["5".toList, "4".toList]]) := by
  decide

/-! ## Sorting (`src/converter.py` lines 85–91, 193–215)

Python `float` values are modelled exactly as rationals (`fin num den` means
`num / (den+1)`), extended with the three non-finite values. Two modelling
notes: (1) IEEE-754 parsing rounds each decimal literal to 53 bits, which can
only merge the order of two distinct nearby literals into a tie, never swap
it; the theorems below never distinguish ties among finite keys, so the exact
model is faithful for them. (2) Overflow is modelled exactly: a literal whose
value reaches `2^1024 - 2^970` (the round-to-nearest boundary of the largest
finite double) parses to the corresponding infinity, as CPython's
correctly-rounded `float` does. -/

/-- A Python sort key produced by `to_num`: NaN, −∞, an exact finite value
`num/(den+1)`, or +∞. -/
inductive PyKey : Type
  | nan : PyKey
  | ninf : PyKey
  | fin : Int → Nat → PyKey
  | pinf : PyKey
deriving DecidableEq

/-- Rank of a key in the float order; `fin` compares by value against `fin`.
NaN is placed below everything, but Python's `sorted` is *not* an order-based
sort when NaN keys are present (every comparison is false), so theorems about
sorting hypothesize NaN away. -/
def keyRank : PyKey → Nat
  | PyKey.nan => 0
  | PyKey.ninf => 1
  | PyKey.fin _ _ => 2
  | PyKey.pinf => 3

/-- The `≤` comparison on keys (cross-multiplied for finite values). -/
def keyLe : PyKey → PyKey → Bool
  | PyKey.fin n1 d1, PyKey.fin n2 d2 => n1 * ((d2 : Int) + 1) ≤ n2 * ((d1 : Int) + 1)
  | a, b => keyRank a ≤ keyRank b

theorem keyLe_total (a b : PyKey) : keyLe a b = true ∨ keyLe b a = true := by
  cases a <;> cases b <;> simp [keyLe, keyRank] <;> omega

theorem keyLe_trans (a b c : PyKey) (hab : keyLe a b = true) (hbc : keyLe b c = true) :
    keyLe a c = true := by
  cases a <;> cases b <;> cases c <;> simp_all [keyLe, keyRank]
  case fin.fin.fin n1 d1 n2 d2 n3 d3 =>
    have p1 : (0 : Int) < (d1 : Int) + 1 := by positivity
    have p2 : (0 : Int) < (d2 : Int) + 1 := by positivity
    have p3 : (0 : Int) < (d3 : Int) + 1 := by positivity
    nlinarith [mul_le_mul_of_nonneg_right hab (le_of_lt p3),
      mul_le_mul_of_nonneg_right hbc (le_of_lt p1)]

/-- A key that is neither NaN nor −∞ is never `≤ −∞`. -/
theorem keyLe_ninf_false (k : PyKey) (h1 : k ≠ PyKey.nan) (h2 : k ≠ PyKey.ninf) :
    keyLe k PyKey.ninf = false := by
  cases k <;> simp_all [keyLe, keyRank]

/-- Head-is-an-ASCII-digit test. -/
def headIsDigit : Str → Bool
  | c :: _ => isAsciiDigit c
  | [] => false

/-- CPython's underscore rule for numeric literals fed to `float`: every
underscore must sit between two digits. The flag carries whether the previous
character was a digit. -/
def usOkAux : Bool → Str → Bool
  | _, [] => true
  | prevD, c :: cs =>
    if c = '_' then prevD && headIsDigit cs && usOkAux false cs
    else usOkAux (isAsciiDigit c) cs

/-- Are all underscores legally placed? -/
def underscoresOk (s : Str) : Bool := usOkAux false s

/-- Consume one optional sign, returning `±1` and the rest. -/
def splitSign : Str → Int × Str
  | '+' :: r => (1, r)
  | '-' :: r => (-1, r)
  | r => (1, r)

/-- Overflow boundary of IEEE-754 binary64 under round-to-nearest-even:
decimal values of magnitude `≥ 2^1024 − 2^970` parse to an infinity. -/
def overflowBound : Nat := 2 ^ 1024 - 2 ^ 970

/-- Build the key for an exact decimal value `num / den` (`den ≥ 1`),
applying double overflow. -/
def mkFloatKey (num : Int) (den : Nat) : PyKey :=
  if overflowBound * den ≤ num.natAbs then
    (if num < 0 then PyKey.ninf else PyKey.pinf)
  else PyKey.fin num (den - 1)

/-- Key of the decimal literal `sign * (digits m with k of them fractional) *
10^e`. -/
def decimalValue (sign : Int) (m : Nat) (k : Nat) (e : Int) : PyKey :=
  if 0 ≤ e - (k : Int) then mkFloatKey (sign * (m : Int) * 10 ^ (e - (k : Int)).toNat) 1
  else mkFloatKey (sign * (m : Int)) (10 ^ (((k : Int) - e).toNat))

/-- Python `float(s)` on a stripped string: `none` models `ValueError`.
Grammar: optional sign, then `inf`/`infinity`/`nan` (case-insensitive) or a
decimal literal (digits, optional point and fraction digits, at least one
digit, optional exponent with at least one digit), with CPython's
between-digits underscore rule. Modelled for ASCII digits (Python also
accepts exotic Unicode digits; no claim exercises them). -/
def pyFloatParse (s : Str) : Option PyKey :=
  if underscoresOk s = false then none
  else
    let s1 := s.filter (fun c => c ≠ '_')
    let sr := splitSign s1
    let rl := lowerStr sr.2
    if rl = "inf".toList ∨ rl = "infinity".toList then
      some (if sr.1 < 0 then PyKey.ninf else PyKey.pinf)
    else if rl = "nan".toList then some PyKey.nan
    else
      let intD := sr.2.takeWhile isAsciiDigit
      let rest1 := sr.2.dropWhile isAsciiDigit
      let fr :=
        match rest1 with
        | '.' :: r2 => (r2.takeWhile isAsciiDigit, r2.dropWhile isAsciiDigit)
        | _ => (([] : Str), rest1)
      if intD = [] ∧ fr.1 = [] then none
      else
        let m := digitsToNat (intD ++ fr.1)
        let k := fr.1.length
        match fr.2 with
        | [] => some (decimalValue sr.1 m k 0)
        | e :: r3 =>
          if e = 'e' ∨ e = 'E' then
            let er := splitSign r3
            let expD := er.2.takeWhile isAsciiDigit
            let r5 := er.2.dropWhile isAsciiDigit
            if expD = [] ∨ r5 ≠ [] then none
            else some (decimalValue sr.1 m k (er.1 * (digitsToNat expD : Int)))
          else none

/-- The argument preparation of `to_num` (`src/converter.py` line 200):
`(v or "").strip().replace(",", ".")`. -/
def prepNum (v : Str) : Str := replaceCh ',' ['.'] (stripWs v)

/-- `to_num` (`src/converter.py` lines 199–204): parse as float, unparsable
values become −∞. -/
def toNum (v : Str) : PyKey :=
  match pyFloatParse (prepNum v) with
  | some k => k
  | none => PyKey.ninf

/-- `SortKey` (`src/converter.py` lines 85–91). -/
structure SortKey : Type where
  field1based : Int
  type : Str := "string".toList
  direction : Str := "asc".toList
  ignoreCase : Bool := true

/-- Python `s or default` for strings: the empty string is falsy. -/
def orDefaultStr (s d : Str) : Str := if s = [] then d else s

/-- The clamped 0-based sort column (`src/converter.py` line 194):
`max(0, min(headers_len - 1, key.field_1based - 1))`, in `Int` then back to
`Nat`. -/
def sortIdx (key : SortKey) (headersLen : Nat) : Nat :=
  (max 0 (min ((headersLen : Int) - 1) (key.field1based - 1))).toNat

/-- `get_val` (`src/converter.py` lines 196–197): the cell at the sort column,
empty for short rows. -/
def getVal (idx : Nat) (r : List Str) : Str := r.getD idx []

/-- Lexicographic `≤` on strings by code point (Python string comparison). -/
def strLeB : Str → Str → Bool
  | [], _ => true
  | _ :: _, [] => false
  | a :: as, b :: bs =>
    if a.toNat < b.toNat then true
    else if b.toNat < a.toNat then false
    else strLeB as bs

/-- `_apply_sort` (`src/converter.py` lines 193–215). Python's `sorted` is the
stable sort by the key function; `reverse=True` sorts descending with ties
kept in original order, i.e. the stable sort by the flipped comparison.
`List.insertionSort` with the corresponding `≤`-comparator computes exactly
that (it inserts each element before the first earlier-sorted element it is
`≤` to, which preserves the original order of equal keys). -/
def applySort (rows : List (List Str)) (key : SortKey) (headersLen : Nat) :
    List (List Str) :=
  if lowerStr (orDefaultStr key.type "string".toList) = "numeric".toList then
    if lowerStr (orDefaultStr key.direction "asc".toList) = "desc".toList then
      List.insertionSort (fun a b =>
        keyLe (toNum (getVal (sortIdx key headersLen) b))
          (toNum (getVal (sortIdx key headersLen) a)) = true) rows
    else
      List.insertionSort (fun a b =>
        keyLe (toNum (getVal (sortIdx key headersLen) a))
          (toNum (getVal (sortIdx key headersLen) b)) = true) rows
  else
    if key.ignoreCase then
      if lowerStr (orDefaultStr key.direction "asc".toList) = "desc".toList then
        List.insertionSort (fun a b =>
          strLeB (casefoldStr (getVal (sortIdx key headersLen) b))
            (casefoldStr (getVal (sortIdx key headersLen) a)) = true) rows
      else
        List.insertionSort (fun a b =>
          strLeB (casefoldStr (getVal (sortIdx key headersLen) a))
            (casefoldStr (getVal (sortIdx key headersLen) b)) = true) rows
    else
      if lowerStr (orDefaultStr key.direction "asc".toList) = "desc".toList then
        List.insertionSort (fun a b =>
          strLeB (getVal (sortIdx key headersLen) b)
            (getVal (sortIdx key headersLen) a) = true) rows
      else
        List.insertionSort (fun a b =>
          strLeB (getVal (sortIdx key headersLen) a)
            (getVal (sortIdx key headersLen) b) = true) rows

set_option maxRecDepth 65536

/-- C4 counterexample: the claim says unparsable values "appear before all
parsable values in ascending direction". The literal `"-inf"` *is* parsable
(`float("-inf")` succeeds) and yields −∞, tying with the unparsable `"bad"`;
the stable sort keeps the original order, so the parsable `"-inf"` row stays
*before* the unparsable `"bad"` row. -/
theorem C4_unparsable_not_before_parsable_neg_inf :
    applySort [["-inf".toList], ["bad".toList]]
        ⟨1, "numeric".toList, "asc".toList, true⟩ 1 =
      [["-inf".toList], ["bad".toList]] ∧
      pyFloatParse (prepNum "-inf".toList) = some PyKey.ninf ∧
      pyFloatParse (prepNum "bad".toList) = none := by
  decide

/-- Ascending numeric sort produces a key-sorted list. -/
theorem applySort_numeric_asc_sorted (rows : List (List Str)) (key : SortKey) (n : Nat)
    (htyp : lowerStr (orDefaultStr key.type "string".toList) = "numeric".toList)
    (hdir : lowerStr (orDefaultStr key.direction "asc".toList) ≠ "desc".toList) :
    List.Sorted (fun a b =>
      keyLe (toNum (getVal (sortIdx key n) a)) (toNum (getVal (sortIdx key n) b)) = true)
      (applySort rows key n) := by
  rw [applySort, if_pos htyp, if_neg hdir]
  haveI : IsTotal (List Str) (fun a b =>
      keyLe (toNum (getVal (sortIdx key n) a)) (toNum (getVal (sortIdx key n) b)) = true) :=
    ⟨fun a b => keyLe_total _ _⟩
  haveI : IsTrans (List Str) (fun a b =>
      keyLe (toNum (getVal (sortIdx key n) a)) (toNum (getVal (sortIdx key n) b)) = true) :=
    ⟨fun a b c => keyLe_trans _ _ _⟩
  exact List.sorted_insertionSort _ rows

/-- C4 (amended): in an ascending numeric sort, each target cell is stripped,
commas become dots, and the cell is parsed as a float; cells that fail to
parse sort as −∞ and therefore appear before every cell that parses to a key
other than −∞ and NaN (a parsable `"-inf"`/overflowed literal ties with them
instead, stability keeping original order; NaN keys are hypothesized away
because Python's `sorted` is not an order-based sort with NaN keys). The
cited example sorts `"10", "2", "bad"` to `bad, 2, 10`. -/
theorem C4_numeric_sort_unparsable_first_amended :
    (∀ (rows : List (List Str)) (key : SortKey) (headersLen : Nat),
      lowerStr (orDefaultStr key.type "string".toList) = "numeric".toList →
      lowerStr (orDefaultStr key.direction "asc".toList) ≠ "desc".toList →
      (∀ r ∈ rows, toNum (getVal (sortIdx key headersLen) r) ≠ PyKey.nan) →
      ∀ i j : Nat, i < (applySort rows key headersLen).length →
        j < (applySort rows key headersLen).length →
        pyFloatParse (prepNum (getVal (sortIdx key headersLen)
          ((applySort rows key headersLen).getD i []))) = none →
        (∃ k, pyFloatParse (prepNum (getVal (sortIdx key headersLen)
            ((applySort rows key headersLen).getD j []))) = some k ∧
          k ≠ PyKey.ninf ∧ k ≠ PyKey.nan) →
        i < j) ∧
      applySort [["10".toList], ["2".toList], ["bad".toList]]
          ⟨1, "numeric".toList, "asc".toList, true⟩ 1 =
        [["bad".toList], ["2".toList], ["10".toList]] := by
  constructor
  · intro rows key n htyp hdir _hnan i j hi hj hfi hfj
    obtain ⟨k, hk, hkninf, hknan⟩ := hfj
    have hsorted := applySort_numeric_asc_sorted rows key n htyp hdir
    rcases lt_trichotomy i j with h | h | h
    · exact h
    · exfalso
      subst h
      rw [hfi] at hk
      exact Option.noConfusion hk
    · exfalso
      have hrel : keyLe
          (toNum (getVal (sortIdx key n) ((applySort rows key n).getD j [])))
          (toNum (getVal (sortIdx key n) ((applySort rows key n).getD i []))) = true := by
        rw [List.getD_eq_getElem _ [] hj, List.getD_eq_getElem _ [] hi]
        have hp := List.pairwise_iff_get.mp hsorted ⟨j, hj⟩ ⟨i, hi⟩ h
        simpa using hp
      have hki : toNum (getVal (sortIdx key n) ((applySort rows key n).getD i [])) =
          PyKey.ninf := by
        rw [toNum, hfi]
      have hkj : toNum (getVal (sortIdx key n) ((applySort rows key n).getD j [])) = k := by
        rw [toNum, hk]
      rw [hki, hkj, keyLe_ninf_false k hknan hkninf] at hrel
      exact Bool.noConfusion hrel
  · decide

/-- C4 witness: sorting `["5"], ["x"]` ascending numerically puts the
unparsable `"x"` (index 0 of the output) before the parsable `"5"`
(index 1). -/
theorem C4_numeric_sort_witness :
    applySort [["5".toList], ["x".toList]] ⟨1, "numeric".toList, "asc".toList, true⟩ 1 =
        [["x".toList], ["5".toList]] ∧ (0 : Nat) < 1 :=
  ⟨by decide,
    C4_numeric_sort_unparsable_first_amended.1 [["5".toList], ["x".toList]]
      ⟨1, "numeric".toList, "asc".toList, true⟩ 1 (by decide) (by decide) (by decide) 0 1
      (by decide) (by decide) (by decide)
      ⟨PyKey.fin 5 0, by decide, by decide, by decide⟩⟩

/-! ## CSV tokenizing (`src/converter.py` lines 105–155, plus the parts of
CPython's `csv` module the source calls)

The reader models the `_csv` parser state machine for the tier-1 call
`csv.reader(io.StringIO(normalized, newline=""), dialect, quotechar=...,
quoting=...)` on the normalized text (which contains no `\r`): fields split on
the delimiter, `QUOTE_MINIMAL` quote handling with doubled quotes
(`doublequote=True`, `escapechar=None`, `strict=False`), records split on
newlines outside quotes, a blank line giving an empty record, and a final
record without a trailing newline still emitted. Two deliberate gaps, neither
reachable by any claim: the 128 KiB field-size limit is not modelled (it is
the only `csv.Error` tier 1 can raise on `\r`-free text read with
`newline=""`, so the tier-2/tier-3 fallbacks of lines 141–155 are dead in the
model and are not modelled either), and NUL characters are ordinary data as
in current CPython. -/

/-- Quoting mode: `csv.QUOTE_MINIMAL` (`standard`) or `csv.QUOTE_NONE`
(`no_quotes`), per `src/converter.py` lines 124–126. -/
inductive Quoting : Type
  | minimal : Quoting
  | noQuotes : Quoting
deriving DecidableEq

/-- The mutable fields of a `csv` dialect as this program uses them. The
source mutates `delimiter`, `quotechar` and `quoting` (and sets
`doublequote = True`, which the model fixes); `skipinitialspace` comes from
sniffing and is never mutated. -/
structure Dialect : Type where
  delimiter : Str
  quotechar : Char
  quoting : Quoting
  skipinitialspace : Bool
deriving DecidableEq

/-- The module-global `csv.excel` dialect class in its initial state:
delimiter `,`, quotechar `"`, `QUOTE_MINIMAL`, no initial-space skipping.
The source aliases and mutates this class object, which is the shared state
claim C2 is about. -/
def csvExcel0 : Dialect :=
  { delimiter := ",".toList, quotechar := '"', quoting := Quoting.minimal,
    skipinitialspace := false }

/-- Parser states of the `_csv` reader state machine. -/
inductive RState : Type
  | startRecord : RState
  | startField : RState
  | inField : RState
  | inQuoted : RState
  | quoteInQuoted : RState

/-- The `_csv` reader state machine on a `\r`-free character stream.
Arguments: delimiter, quote character, quoting mode, skipinitialspace; then
state, current field, current record, remaining input. -/
def csvReadAux (d q : Char) (qm : Quoting) (sis : Bool) :
    RState → Str → List Str → Str → List (List Str)
  | RState.startRecord, _, _, [] => []
  | _, field, record, [] => [record ++ [field]]
  | RState.startRecord, _, _, c :: rest =>
    if c = '\n' then [] :: csvReadAux d q qm sis RState.startRecord [] [] rest
    else if qm = Quoting.minimal ∧ c = q then
      csvReadAux d q qm sis RState.inQuoted [] [] rest
    else if sis ∧ c = ' ' then csvReadAux d q qm sis RState.startField [] [] rest
    else if c = d then csvReadAux d q qm sis RState.startField [] [[]] rest
    else csvReadAux d q qm sis RState.inField [c] [] rest
  | RState.startField, field, record, c :: rest =>
    if c = '\n' then
      (record ++ [field]) :: csvReadAux d q qm sis RState.startRecord [] [] rest
    else if qm = Quoting.minimal ∧ c = q then
      csvReadAux d q qm sis RState.inQuoted field record rest
    else if sis ∧ c = ' ' then csvReadAux d q qm sis RState.startField field record rest
    else if c = d then
      csvReadAux d q qm sis RState.startField [] (record ++ [field]) rest
    else csvReadAux d q qm sis RState.inField (field ++ [c]) record rest
  | RState.inField, field, record, c :: rest =>
    if c = '\n' then
      (record ++ [field]) :: csvReadAux d q qm sis RState.startRecord [] [] rest
    else if c = d then
      csvReadAux d q qm sis RState.startField [] (record ++ [field]) rest
    else csvReadAux d q qm sis RState.inField (field ++ [c]) record rest
  | RState.inQuoted, field, record, c :: rest =>
    if qm = Quoting.minimal ∧ c = q then
      csvReadAux d q qm sis RState.quoteInQuoted field record rest
    else csvReadAux d q qm sis RState.inQuoted (field ++ [c]) record rest
  | RState.quoteInQuoted, field, record, c :: rest =>
    if qm = Quoting.minimal ∧ c = q then
      csvReadAux d q qm sis RState.inQuoted (field ++ [q]) record rest
    else if c = d then
      csvReadAux d q qm sis RState.startField [] (record ++ [field]) rest
    else if c = '\n' then
      (record ++ [field]) :: csvReadAux d q qm sis RState.startRecord [] [] rest
    else csvReadAux d q qm sis RState.inField (field ++ [c]) record rest

/-- Read all records of the normalized text with the given dialect. The `csv`
module requires the delimiter to be a one-character string (anything else is
a `TypeError` at the reader call, outside the `csv.Error` fallback chain and
outside this model; every delimiter the program can configure is one
character). -/
def csvRead (dialect : Dialect) (text : Str) : List (List Str) :=
  csvReadAux (dialect.delimiter.headD ',') dialect.quotechar dialect.quoting
    dialect.skipinitialspace RState.startRecord [] [] text

/-! ### The `csv.Sniffer` delimiter guesser

`csv.Sniffer().sniff(sample, delimiters=",;\t|")` first runs
`_guess_quote_and_delimiter`, whose four regexes each require a quote
character (`"` or `'`) inside the match; on quote-free samples they find
nothing, and the guess falls through to `_guess_delimiter`, modelled below
faithfully (samples containing quote characters are not modelled; no claim
exercises one). The float `consistency` loop (1.0 stepping by −0.01 down to
the 0.9 threshold, eleven values) is modelled in exact hundredths; its
comparisons only face ratios of small integers where the double rounding of
CPython agrees with exact arithmetic except on knife-edge ties that no claim
exercises. -/

/-- Insertion-ordered association-list update (Python `dict` semantics:
update in place, insert at the end). -/
def alSet {α β : Type} [DecidableEq α] : List (α × β) → α → β → List (α × β)
  | [], k, v => [(k, v)]
  | (k', v') :: rest, k, v =>
    if k' = k then (k, v) :: rest else (k', v') :: alSet rest k v

/-- The 7-bit characters `chr(0) .. chr(126)` that `_guess_delimiter`
tallies. -/
def asciiChars : Str := (List.range 127).map Char.ofNat

/-- One line's contribution to the character-frequency table:
`charFrequency[char][line.count(char)] += 1` for every ASCII char. -/
def gdUpdateLine (cf : List (Char × List (Nat × Nat))) (line : Str) :
    List (Char × List (Nat × Nat)) :=
  asciiChars.foldl
    (fun cf ch =>
      let meta := ((List.lookup ch cf).getD [])
      let freq := line.count ch
      alSet cf ch (alSet meta freq (((List.lookup freq meta).getD 0) + 1)))
    cf

/-- Python `max(items, key=lambda x: x[1])`: the first item with maximal
count. -/
def maxByCount (x : Nat × Nat) (xs : List (Nat × Nat)) : Nat × Nat :=
  xs.foldl (fun best y => if best.2 < y.2 then y else best) x

/-- The mode computation of `_guess_delimiter` for one character's frequency
table: skip chars that never occur; otherwise take the most common frequency
and subtract the other counts (which can go negative, hence `Int`). -/
def gdModeFor : List (Nat × Nat) → Option (Nat × Int)
  | [] => none
  | [item] => if item.1 = 0 then none else some (item.1, (item.2 : Int))
  | x :: xs =>
    let mode := maxByCount x xs
    let rest := (x :: xs).erase mode
    some (mode.1, (mode.2 : Int) - ((rest.map (fun p => (p.2 : Int))).sum))

/-- Recompute `modes` from the accumulated frequency table (`continue`
leaves a stale entry from a previous chunk in place, as in the source). -/
def gdModes (cf : List (Char × List (Nat × Nat)))
    (modes : List (Char × (Nat × Int))) : List (Char × (Nat × Int)) :=
  cf.foldl
    (fun ms p =>
      match gdModeFor p.2 with
      | some v => alSet ms p.1 v
      | none => ms)
    modes

/-- The consistency loop: while no delimiters qualify, retry with the bar
lowered by 0.01, from 1.00 down to the fixed 0.90 threshold (eleven
passes, counted by `steps`). A character qualifies when its modal frequency
is positive, its adjusted count is positive and at least `consistency` of the
total, and it is in the candidate set. -/
def gdConsLoop (modeList : List (Char × (Nat × Int))) (total : Nat)
    (delimiters : Str) : Nat → List (Char × (Nat × Int)) → List (Char × (Nat × Int))
  | 0, delims => delims
  | steps + 1, delims =>
    if delims = [] then
      gdConsLoop modeList total delimiters steps
        (modeList.foldl
          (fun ds p =>
            if 0 < p.2.1 ∧ 0 < p.2.2 ∧ (90 + (steps : Int)) * (total : Int) ≤ 100 * p.2.2 ∧
                p.1 ∈ delimiters then
              alSet ds p.1 p.2
            else ds)
          delims)
    else delims

/-- Non-overlapping substring count, Python `s.count(sub)` for nonempty
`sub` (fuelled; fuel `length` suffices since every step consumes a
character). -/
def countSubAux (pat : Str) : Nat → Str → Nat
  | 0, _ => 0
  | f + 1, [] => (f + 1) * 0
  | f + 1, c :: cs =>
    if startsL (c :: cs) pat then 1 + countSubAux pat f (cs.drop (pat.length - 1))
    else countSubAux pat f cs

/-- Python `s.count(sub)` for nonempty `sub`. -/
def countSub (pat s : Str) : Nat := countSubAux pat s.length s

/-- The sniffed `skipinitialspace`: the delimiter is always followed by a
space in the first line (`data[0].count(delim) == data[0].count(delim + " ")`). -/
def gdSkipInitialSpace (data : List Str) (delim : Char) : Bool :=
  countSub [delim] (data.headD []) = countSub [delim, ' '] (data.headD [])

/-- The preferred-delimiter order used when several candidates survive. -/
def gdPreferred : Str := [',', '\t', ';', ' ', ':']

/-- End-of-loop resolution of `_guess_delimiter`: no candidate means the
sniff fails (`csv.Error`); with several, take the first preferred one, else
the lexicographically dominant `(mode, char)` pair (Python sorts the
`[(v, k)]` items and takes the last). -/
def gdFinal (data : List Str) (delims : List (Char × (Nat × Int))) :
    Option (Char × Bool) :=
  match delims with
  | [] => none
  | d0 :: drest =>
    if drest ≠ [] then
      match gdPreferred.find? (fun d => (List.lookup d delims).isSome) with
      | some d => some (d, gdSkipInitialSpace data d)
      | none =>
        let best := drest.foldl
          (fun (best : Char × (Nat × Int)) x =>
            if best.2.1 < x.2.1 ∨ (best.2.1 = x.2.1 ∧ best.2.2 < x.2.2) ∨
                (best.2.1 = x.2.1 ∧ best.2.2 = x.2.2 ∧ best.1.toNat < x.1.toNat) then
              x
            else best)
          d0
        some (best.1, gdSkipInitialSpace data best.1)
    else some (d0.1, gdSkipInitialSpace data d0.1)

/-- The chunked scan of `_guess_delimiter`: tally ten lines at a time,
recompute modes and candidates, and return as soon as exactly one candidate
remains. Fuelled by the number of remaining chunks (`data.length + 1` always
suffices since `start` grows by `chunkLength ≥ 1` whenever lines remain). -/
def gdLoop (data : List Str) (delimiters : Str) (chunkLength : Nat) :
    Nat → Nat → Nat → List (Char × List (Nat × Nat)) → List (Char × (Nat × Int)) →
      List (Char × (Nat × Int)) → Option (Char × Bool)
  | 0, _, _, _, _, delims => gdFinal data delims
  | fuel + 1, start, iteration, cf, modes, delims =>
    if data.length ≤ start then gdFinal data delims
    else
      let cf' := ((data.drop start).take chunkLength).foldl gdUpdateLine cf
      let modes' := gdModes cf' modes
      let total := min (chunkLength * (iteration + 1)) data.length
      let delims' := gdConsLoop modes' total delimiters 11 delims
      if delims'.length = 1 then
        some ((delims'.headD (' ', (0, 0))).1,
          gdSkipInitialSpace data (delims'.headD (' ', (0, 0))).1)
      else gdLoop data delimiters chunkLength fuel (start + chunkLength)
        (iteration + 1) cf' modes' delims'

/-- `csv.Sniffer()._guess_delimiter(sample, delimiters)`: `none` models the
raised `csv.Error("Could not determine delimiter")`. -/
def guessDelimiter (sample : Str) (delimiters : Str) : Option (Char × Bool) :=
  let data := (splitOnCh '\n' sample).filter (fun l => l ≠ [])
  gdLoop data delimiters (min 10 data.length) (data.length + 1) 0 0 [] [] []

/-- `csv.Sniffer().sniff(sample, delimiters=",;\t|")` as the source calls it
(`src/converter.py` line 119), for quote-free samples (see the section
comment): the quote-based guess finds nothing and the frequency-based guess
decides. -/
def sniff (sample : Str) : Option (Char × Bool) :=
  guessDelimiter sample ",;\t|".toList

/-! ### `_parse_csv` with the shared mutable `csv.excel` dialect -/

/-- `CsvParseOptions` (`src/converter.py` lines 75–82). The `str | None`
`limit_lines` is an `Option`; `delimiter`, `quote_mode` and `quotechar` are
strings as in the source. -/
structure CsvParseOptions : Type where
  delimiter : Str := "auto".toList
  hasHeader : Bool := true
  skipLines : Int := 0
  limitLines : Option Int := none
  quoteMode : Str := "standard".toList
  quotechar : Str := "\"".toList

/-- Python `s.replace("\r\n", "\n")` (same scan as `replCrlf`, emitting a
newline). -/
def replCrlfNl : Str → Str
  | [] => []
  | [c] => [c]
  | c1 :: c2 :: r =>
    if c1 = '\r' ∧ c2 = '\n' then '\n' :: replCrlfNl r
    else c1 :: replCrlfNl (c2 :: r)

/-- The `Field 1, Field 2, …` labels synthesized when no header row is
configured (`src/converter.py` lines 173–174). -/
def fieldLabels (width : Nat) : List Str :=
  (List.range width).map (fun i => "Field ".toList ++ natToStr (i + 1))

/-- Header derivation from the tokenized row stream after skip/limit
(`src/converter.py` lines 166–176): an empty stream yields empty headers and
rows; with `has_header` the cleaned first row is the header and the rest are
data; otherwise labels sized to the widest row are synthesized and every row
is data. -/
def deriveTable (reader : List (List Str)) (hasHeader : Bool) :
    List Str × List (List Str) :=
  if reader = [] then ([], [])
  else if hasHeader then ((reader.headD []).map cleanHeader, reader.tail)
  else (fieldLabels ((reader.map List.length).foldr max 0), reader)

/-- `_parse_csv` (`src/converter.py` lines 105–176), with the module-global
`csv.excel` dialect threaded as explicit state: the function takes the
current `csv.excel` field values and returns their new values along with the
parse result. An explicit delimiter is assigned onto `csv.excel` itself
(line 116: `dialect = csv.excel; dialect.delimiter = delim`), as are the
quote settings whenever the sniffing path failed or was skipped (lines
129–133) — those writes are the state this returns. A successful sniff
returns a fresh dialect class, so its mutation is invisible. -/
def parseCsvSt (excel : Dialect) (csvText : Str) (opts : CsvParseOptions) :
    Dialect × (List Str × List (List Str)) :=
  let delim0 := orDefaultStr opts.delimiter "auto".toList
  let delim1 := if delim0 = "tab".toList then "\t".toList else delim0
  let delim2 := if delim1 = "pipe".toList then "|".toList else delim1
  -- first component true: `dialect` aliases the global `csv.excel`
  let res : Bool × Dialect :=
    if delim2 ≠ "auto".toList then (true, { excel with delimiter := delim2 })
    else
      match sniff (csvText.take 4096) with
      | some (d, sis) =>
        (false, ⟨[d], '"', Quoting.minimal, sis⟩)
      | none => (true, excel)
  let quotechar := (orDefaultStr opts.quotechar "\"".toList).headD '"'
  let quoting :=
    if opts.quoteMode = "no_quotes".toList then Quoting.noQuotes else Quoting.minimal
  let dialect : Dialect := { res.2 with quotechar := quotechar, quoting := quoting }
  let excelOut := if res.1 then dialect else excel
  let normalized := replaceCh '\r' ['\n'] (replCrlfNl csvText)
  let records := csvRead dialect normalized
  let afterSkip := records.drop (max 0 opts.skipLines).toNat
  let afterLimit :=
    match opts.limitLines with
    | some l => afterSkip.take (max 0 l).toNat
    | none => afterSkip
  (excelOut, deriveTable afterLimit opts.hasHeader)

/-- C2: the claim (and §5 of the spec) requires the parse stage to be pure —
two calls with identical arguments must agree regardless of calls in
between. The code violates this: `dialect = csv.excel; dialect.delimiter =
delim` (line 116) mutates the module-global `csv.excel` class, and an
auto-delimiter call whose sniffing fails (here on `"a|b\nc"`, where no
candidate character appears consistently across both lines) falls back to
that mutated global. Parsing `"a|b\nc"` with `auto` on a fresh interpreter
yields headers `["a|b"]`; after an unrelated call with `delimiter="pipe"`,
the identical call yields `["a", "b"]`. -/
theorem C2_parse_csv_shared_dialect_state :
    (parseCsvSt csvExcel0 "a|b\nc".toList {}).2 =
        (["a|b".toList], [["c".toList]]) ∧
      (parseCsvSt
          (parseCsvSt csvExcel0 "x".toList { delimiter := "pipe".toList }).1
          "a|b\nc".toList {}).2 =
        (["a".toList, "b".toList], [["c".toList]]) := by
  decide

/-- C6 counterexample: the claim describes header labels as the first row's
labels "stripped of a stray byte-order mark and surrounding whitespace", but
`_clean_header` *also* deletes every NUL byte: on the token row
`["a\x00b"]` the code produces header `"ab"`, while stripping byte-order
marks and whitespace from `"a\x00b"` leaves it unchanged. -/
theorem C6_header_label_nul_removed :
    (deriveTable [["a\x00b".toList]] true).1 = ["ab".toList] ∧
      stripWs (("a\x00b".toList).dropWhile (fun c => c = '﻿')) = "a\x00b".toList ∧
      ["ab".toList] ≠ ["a\x00b".toList] := by
  decide

/-- C6 (amended): for every tokenized row stream after skip/limit, an empty
stream yields empty headers and rows without error; with the header flag the
first row becomes the header, each label cleaned by removing NUL bytes,
stripping leading byte-order marks and surrounding whitespace, and the rest
become data; without the flag, labels `Field 1, …` sized to the widest row
are synthesized and all rows are data. -/
theorem C6_header_derivation_amended :
    ∀ (reader : List (List Str)) (hasHeader : Bool),
      (reader = [] → deriveTable reader hasHeader = ([], [])) ∧
      (∀ r0 rest, reader = r0 :: rest → hasHeader = true →
        deriveTable reader hasHeader = (r0.map cleanHeader, rest)) ∧
      (reader ≠ [] → hasHeader = false →
        deriveTable reader hasHeader =
          (fieldLabels ((reader.map List.length).foldr max 0), reader)) ∧
      (∀ s, cleanHeader s =
        stripWs ((replaceCh '\x00' [] s).dropWhile (fun c => c = '﻿'))) := by
  intro reader hasHeader
  refine ⟨?_, ?_, ?_, fun _ => rfl⟩
  · intro h
    subst h
    rfl
  · intro r0 rest h hh
    subst h
    subst hh
    rw [deriveTable, if_neg (by simp), if_pos rfl]
    rfl
  · intro hne hh
    subst hh
    rw [deriveTable, if_neg hne]
    rfl

/-- C6 witness: a two-row stream with header flag set; the label
`"﻿ a "` cleans to `"a"` and the second row is data. -/
theorem C6_header_derivation_witness :
    deriveTable [["﻿ a ".toList], ["1".toList]] true =
      (["a".toList], [["1".toList]]) :=
  ((C6_header_derivation_amended [["﻿ a ".toList], ["1".toList]] true).2.1
    ["﻿ a ".toList] [["1".toList]] rfl rfl).trans (by decide)

/-! ## Table rendering (`src/converter.py` lines 218–263) -/

/-- `sep.join(pieces)`. -/
def joinSep (sep : Str) (pieces : List Str) : Str := List.intercalate sep pieces

/-- The rendering stage of `csv_text_to_markdown_table`
(`src/converter.py` lines 240–263), applied to the already parsed, projected
and sorted table. Jira data rows are rendered by the same string template as
Markdown ones — the two branches of the source's row loop are identical. -/
def renderTableStage (headers : List Str) (rows : List (List Str))
    (addLineNumbers : Bool) (eol : Str) (tableStyle : Str) (preamble : Str) : Str :=
  let headers2 := if addLineNumbers then "#".toList :: headers else headers
  let rows2 :=
    if addLineNumbers then rows.enum.map (fun p => natToStr (p.1 + 1) :: p.2) else rows
  let headersEscaped := headers2.map escapeMdCell
  let headLines : List Str :=
    if tableStyle = "jira".toList then
      ["|| ".toList ++ joinSep " || ".toList headersEscaped ++ " ||".toList]
    else
      ["| ".toList ++ joinSep " | ".toList headersEscaped ++ " |".toList,
        "|".toList ++ joinSep "|".toList (headersEscaped.map (fun _ => "---".toList)) ++
          "|".toList]
  let rowLines := rows2.map (fun row =>
    "| ".toList ++ joinSep " | ".toList (row.map escapeMdCell) ++ " |".toList)
  let lineEnding :=
    if lowerStr (orDefaultStr eol "lf".toList) = "crlf".toList then "\r\n".toList
    else "\n".toList
  normalizePreamble preamble ++ joinSep lineEnding (headLines ++ rowLines) ++ lineEnding

/-- `csv_text_to_markdown_table` (`src/converter.py` lines 218–263), with the
global `csv.excel` dialect threaded as state (it composes `_parse_csv`).
`none` models the uncaught `ValueError` that `_parse_positions` raises on a
digit-but-not-decimal position token. -/
def csvTextToMarkdownTable (excel : Dialect) (csvText : Str) (preamble : Str)
    (parse : Option CsvParseOptions) (positions : Str) (addLineNumbers : Bool)
    (sort : Option SortKey) (eol : Str) (tableStyle : Str) : Option (Dialect × Str) :=
  let opts := parse.getD {}
  let st := parseCsvSt excel csvText opts
  match parsePositions positions with
  | none => none
  | some ps =>
    let hr := applyPositions st.2.1 st.2.2 ps
    let rows :=
      match sort with
      | some k => if hr.1 ≠ [] then applySort hr.2 k hr.1.length else hr.2
      | none => hr.2
    some (st.1, renderTableStage hr.1 rows addLineNumbers eol tableStyle preamble)

/-- C10: rendering the empty parsed table (no headers, no rows) still
produces output: Markdown emits the degenerate header line `|  |` and
separator `||`, Jira the degenerate header `||  ||`, each line terminated by
the chosen end-of-line sequence; the result is never the empty string. The
fifth conjunct checks it end to end: converting the empty input text yields
exactly that non-empty table. -/
theorem C10_empty_table_render_nonempty :
    renderTableStage [] [] false "lf".toList "markdown".toList [] = "|  |\n||\n".toList ∧
      renderTableStage [] [] false "crlf".toList "markdown".toList [] =
        "|  |\r\n||\r\n".toList ∧
      renderTableStage [] [] false "lf".toList "jira".toList [] = "||  ||\n".toList ∧
      renderTableStage [] [] false "crlf".toList "jira".toList [] = "||  ||\r\n".toList ∧
      csvTextToMarkdownTable csvExcel0 [] [] none [] false none "lf".toList
          "markdown".toList = some (csvExcel0, "|  |\n||\n".toList) ∧
      ("|  |\n||\n".toList ≠ ([] : Str)) ∧ ("|  |\r\n||\r\n".toList ≠ ([] : Str)) ∧
      ("||  ||\n".toList ≠ ([] : Str)) ∧ ("||  ||\r\n".toList ≠ ([] : Str)) := by
  decide

/-! ## Outline ("NotebookLM") rendering (`src/converter.py` lines 266–370) -/

/-- `NOTEBOOKLM_MIN_FIELDS` (`src/converter.py` lines 266–295), verbatim. -/
def NOTEBOOKLM_MIN_FIELDS : List Str :=
  ["Keyword".toList, "Country".toList, "Languages".toList, "Volume".toList,
    "Global volume".toList, "KD".toList, "Difficulty".toList,
    "Keyword difficulty".toList, "CPC".toList, "CPS".toList,
    "Traffic potential".toList, "Global traffic potential".toList,
    "SERP features".toList, "SERP Features".toList,
    "Current organic traffic".toList, "Previous organic traffic".toList,
    "Organic traffic change".toList, "Current position".toList,
    "Previous position".toList, "Current URL".toList, "Previous URL".toList,
    "Parent Keyword".toList, "Parent keyword".toList, "Last Update".toList,
    "Last update".toList, "First seen".toList, "Intents".toList, "Intent".toList]

/-- The lookup key of a header in `header_map`
(`src/converter.py` line 320): `_clean_header(h).lower()`. -/
def nblmHeaderKey (h : Str) : Str := lowerStr (cleanHeader h)

/-- `header_map.get(k)`: the dict comprehension `{key(h): h for h in
headers}` keeps, for each key, the *last* header producing it. -/
def headerMapGet (headers : List Str) (k : Str) : Option Str :=
  (headers.filter (fun h => nblmHeaderKey h = k)).getLast?

/-- The allowlist match (`src/converter.py` line 325):
`[header_map[f.lower()] for f in NOTEBOOKLM_MIN_FIELDS if f.lower() in
header_map]`, in allowlist order. -/
def nblmMatchedFields (headers : List Str) : List Str :=
  NOTEBOOKLM_MIN_FIELDS.filterMap (fun f => headerMapGet headers (lowerStr f))

/-- The fallback condition (`src/converter.py` lines 327–331): no match, or
every matched column is the keyword column itself. -/
def nblmFallbackCond (headers : List Str) (fields : List Str) : Bool :=
  fields.isEmpty ||
    (match headerMapGet headers "keyword".toList with
     | some kh => headers.contains kh && fields.all (fun h => h = kh)
     | none => false)

/-- Field selection (`src/converter.py` lines 322–332): all columns in
`full` detail, else the allowlist match with the first-eight fallback. -/
def nblmFields (headers : List Str) (detail : Str) : List Str :=
  if lowerStr detail = "full".toList then headers
  else
    if nblmFallbackCond headers (nblmMatchedFields headers) then headers.take 8
    else nblmMatchedFields headers

/-- The keyword column (`src/converter.py` lines 335–337):
`headers.index(keyword_header) if keyword_header in headers else 0`. -/
def nblmKeywordIdx (headers : List Str) : Nat :=
  match headerMapGet headers "keyword".toList with
  | some kh => if headers.contains kh then headers.indexOf kh else 0
  | none => 0

/-- `itertools.islice(itertools.chain(row, itertools.repeat("")), n)`:
the row padded with empty cells (or truncated) to length `n`
(`src/converter.py` line 351). -/
def padTo (n : Nat) (row : List Str) : List Str :=
  (row ++ List.replicate n []).take n

/-- `row_by_header.get(h, "")` (`src/converter.py` lines 357–361): the dict
`{headers[j]: values[j]}` keeps the value at the *last* position of a
duplicated header. -/
def rowByHeaderGet (headers values : List Str) (h : Str) : Str :=
  match ((headers.zip values).filter (fun p => p.1 = h)).getLast? with
  | some p => p.2
  | none => []

/-- Link-wrapping of bullet values (`src/converter.py` lines 365–366). -/
def nblmBulletValue (v : Str) : Str :=
  if startsL v "http://".toList || startsL v "https://".toList then
    '<' :: (v ++ ['>'])
  else v

/-- The bullet loop of one record (`src/converter.py` lines 358–367) as the
source writes it: iterate the selected fields, skip the keyword column, skip
values empty after escaping and trimming, append a `- **h**: v` line. -/
def nblmRowBulletsLoop (headers values fields : List Str) (kwHeader : Option Str) :
    List Str :=
  fields.foldl
    (fun out h =>
      if kwHeader = some h then out
      else
        if stripWs (escapeMdCell (rowByHeaderGet headers values h)) = [] then out
        else out ++ ["- **".toList ++ h ++ "**: ".toList ++
          nblmBulletValue (stripWs (escapeMdCell (rowByHeaderGet headers values h)))])
    []

/-- The lines emitted for the `i`-th record (1-based, in final row order;
`src/converter.py` lines 349–368): the `###` heading (the keyword-column
value, escaped and trimmed, or `Řádek i` when that is empty), the bullets,
and the blank separator line. When `headers` is empty and a data row exists
the Python code raises `IndexError` on `values[keyword_idx]`; the model reads
an empty cell instead, and theorems about headings hypothesize a nonempty
header list. -/
def nblmRowLines (headers fields : List Str) (kwHeader : Option Str) (kwIdx : Nat)
    (i : Nat) (row : List Str) : List Str :=
  let values := padTo headers.length row
  let kw := stripWs (escapeMdCell (values.getD kwIdx []))
  let heading := if kw = [] then "Řádek ".toList ++ natToStr i else kw
  ("### ".toList ++ heading) :: (nblmRowBulletsLoop headers values fields kwHeader ++ [[]])

/-- Python `rows[:m]` for an `int` bound (negative counts from the end). -/
def pySliceTo (m : Int) (l : List (List Str)) : List (List Str) :=
  if 0 ≤ m then l.take m.toNat else l.take (l.length - (-m).toNat)

/-- The rendering stage of `csv_text_to_markdown_notebooklm`
(`src/converter.py` lines 320–370) on the parsed, projected and sorted
table. -/
def nblmRender (headers : List Str) (rows : List (List Str)) (detail : Str)
    (maxRows : Option Int) (preamble : Str) : Str :=
  let fields := nblmFields headers detail
  let kwHeader := headerMapGet headers "keyword".toList
  let kwIdx := nblmKeywordIdx headers
  let rows2 :=
    match maxRows with
    | some m => pySliceTo m rows
    | none => rows
  let outLines :=
    "## Export (NotebookLM)\n".toList ::
    ("- **Řádků**: ".toList ++ natToStr rows2.length) ::
    ("- **Režim**: ".toList ++
      (if lowerStr detail = "full".toList then "full".toList else "minimal".toList)) ::
    ([] : Str) ::
    "## Záznamy\n".toList ::
    (rows2.enum.flatMap (fun p => nblmRowLines headers fields kwHeader kwIdx (p.1 + 1) p.2))
  normalizePreamble preamble ++ rstripWs (joinSep "\n".toList outLines) ++ "\n".toList

/-- `csv_text_to_markdown_notebooklm` (`src/converter.py` lines 298–370),
with the global `csv.excel` dialect threaded as state. `none` models the
uncaught `ValueError` that `_parse_positions` raises on a
digit-but-not-decimal position token. -/
def csvTextToMarkdownNotebooklm (excel : Dialect) (csvText : Str) (preamble : Str)
    (detail : Str) (maxRows : Option Int) (parse : Option CsvParseOptions)
    (positions : Str) (sort : Option SortKey) : Option (Dialect × Str) :=
  let opts := parse.getD {}
  let st := parseCsvSt excel csvText opts
  match parsePositions positions with
  | none => none
  | some ps =>
    let hr := applyPositions st.2.1 st.2.2 ps
    let rows :=
      match sort with
      | some k => if hr.1 ≠ [] then applySort hr.2 k hr.1.length else hr.2
      | none => hr.2
    some (st.1, nblmRender hr.1 rows detail maxRows preamble)

set_option maxHeartbeats 1600000 in
/-- C8 counterexample: the claim says the emitted bullet fields are *exactly*
the allowlist-matched columns. With headers `["Keyword", "Volume"]` (both in
the allowlist, so no fallback) and row `["x", ""]`, the record emits *no*
bullets at all: `Keyword` is skipped as the heading column and `Volume`
because its value is empty after trimming — the record's lines are just the
heading and the blank separator. -/
theorem C8_bullets_not_exactly_matched_columns :
    nblmFields ["Keyword".toList, "Volume".toList] "minimal".toList =
        ["Keyword".toList, "Volume".toList] ∧
      nblmRowLines ["Keyword".toList, "Volume".toList]
          (nblmFields ["Keyword".toList, "Volume".toList] "minimal".toList)
          (headerMapGet ["Keyword".toList, "Volume".toList] "keyword".toList)
          (nblmKeywordIdx ["Keyword".toList, "Volume".toList]) 1
          ["x".toList, []] =
        ["### x".toList, []] ∧
      nblmRowBulletsLoop ["Keyword".toList, "Volume".toList]
          ["x".toList, []]
          (nblmFields ["Keyword".toList, "Volume".toList] "minimal".toList)
          (headerMapGet ["Keyword".toList, "Volume".toList] "keyword".toList) = [] ∧
      (["Keyword".toList, "Volume".toList] ≠ ([] : List Str)) := by
  decide

/-- The bullet loop is the filter-map the amended claim describes: one bullet
per selected field that is not the heading column and whose value is
non-empty after escaping and trimming. -/
theorem nblmRowBulletsLoop_eq (headers values : List Str) (kwHeader : Option Str)
    (fields : List Str) :
    nblmRowBulletsLoop headers values fields kwHeader =
      fields.filterMap (fun h =>
        if kwHeader = some h then none
        else if stripWs (escapeMdCell (rowByHeaderGet headers values h)) = [] then none
        else some ("- **".toList ++ h ++ "**: ".toList ++
          nblmBulletValue (stripWs (escapeMdCell (rowByHeaderGet headers values h))))) := by
  rw [nblmRowBulletsLoop]
  suffices hgen : ∀ (fs : List Str) (acc : List Str),
      fs.foldl
        (fun out h =>
          if kwHeader = some h then out
          else
            if stripWs (escapeMdCell (rowByHeaderGet headers values h)) = [] then out
            else out ++ ["- **".toList ++ h ++ "**: ".toList ++
              nblmBulletValue (stripWs (escapeMdCell (rowByHeaderGet headers values h)))])
        acc =
      acc ++ fs.filterMap (fun h =>
        if kwHeader = some h then none
        else if stripWs (escapeMdCell (rowByHeaderGet headers values h)) = [] then none
        else some ("- **".toList ++ h ++ "**: ".toList ++
          nblmBulletValue (stripWs (escapeMdCell (rowByHeaderGet headers values h))))) by
    have hg := hgen fields []
    rw [List.nil_append] at hg
    exact hg
  intro fs
  induction fs with
  | nil => intro acc; rw [List.foldl_nil, List.filterMap_nil, List.append_nil]
  | cons h t ih =>
    intro acc
    rw [List.foldl_cons, List.filterMap_cons]
    by_cases h1 : kwHeader = some h
    · rw [if_pos h1, if_pos h1, ih]
    · rw [if_neg h1, if_neg h1]
      by_cases h2 : stripWs (escapeMdCell (rowByHeaderGet headers values h)) = []
      · rw [if_pos h2, if_pos h2, ih]
      · rw [if_neg h2, if_neg h2, ih, List.append_assoc]
        rfl

/-- Under distinct case-folded header names, the headers carrying a given key
form the singleton of any one of them. -/
theorem filter_headerKey_singleton (headers : List Str)
    (hnd : (headers.map nblmHeaderKey).Nodup) (h : Str) (hmem : h ∈ headers) :
    headers.filter (fun x => nblmHeaderKey x = nblmHeaderKey h) = [h] := by
  induction headers with
  | nil => cases hmem
  | cons a t ih =>
    rw [List.map_cons, List.nodup_cons] at hnd
    obtain ⟨ha, ht⟩ := hnd
    rcases List.mem_cons.mp hmem with rfl | hmt
    · rw [List.filter_cons, if_pos (by simp)]
      congr 1
      rw [List.filter_eq_nil_iff]
      intro x hx hkey
      have hkeq : nblmHeaderKey x = nblmHeaderKey h := by simpa using hkey
      exact ha (hkeq ▸ List.mem_map_of_mem nblmHeaderKey hx)
    · rw [List.filter_cons, if_neg (by
        simp only [decide_eq_true_eq]
        intro heq
        exact ha (heq ▸ List.mem_map_of_mem nblmHeaderKey hmt))]
      exact ih ht hmt

/-- Under distinct case-folded header names, membership in the allowlist
match is exactly "a header whose key is an allowlist key". -/
theorem mem_nblmMatchedFields (headers : List Str)
    (hnd : (headers.map nblmHeaderKey).Nodup) (h : Str) :
    h ∈ nblmMatchedFields headers ↔
      h ∈ headers ∧ nblmHeaderKey h ∈ NOTEBOOKLM_MIN_FIELDS.map lowerStr := by
  constructor
  · intro hm
    obtain ⟨f, hf, hfeq⟩ := List.mem_filterMap.mp hm
    rw [headerMapGet] at hfeq
    have hmem : h ∈ headers.filter (fun x => nblmHeaderKey x = lowerStr f) :=
      List.mem_of_mem_getLast? (by rw [hfeq]; rfl)
    obtain ⟨hh, hkey⟩ := List.mem_filter.mp hmem
    refine ⟨hh, ?_⟩
    rw [show nblmHeaderKey h = lowerStr f from by simpa using hkey]
    exact List.mem_map_of_mem lowerStr hf
  · rintro ⟨hmem, hkey⟩
    obtain ⟨f, hf, hfeq⟩ := List.mem_map.mp hkey
    refine List.mem_filterMap.mpr ⟨f, hf, ?_⟩
    rw [headerMapGet, hfeq, filter_headerKey_singleton headers hnd h hmem]
    rfl

/-- C8 (amended): in non-`full` detail, the selected fields are the
allowlist-matched columns unless the fallback condition (no match, or only
the heading column matched) holds, in which case the first eight columns are
selected; with distinct case-folded header names the matched columns are
exactly those whose cleaned, lowercased name is on the allowlist; and the
bullets actually emitted for a record are exactly the selected fields minus
the heading column and minus fields whose value is empty after escaping and
trimming. -/
theorem C8_minimal_fields_selection_amended :
    ∀ (headers : List Str) (detail : Str),
      lowerStr detail ≠ "full".toList →
      (nblmFallbackCond headers (nblmMatchedFields headers) = true →
        nblmFields headers detail = headers.take 8) ∧
      (nblmFallbackCond headers (nblmMatchedFields headers) = false →
        nblmFields headers detail = nblmMatchedFields headers) ∧
      ((headers.map nblmHeaderKey).Nodup →
        ∀ h, h ∈ nblmMatchedFields headers ↔
          h ∈ headers ∧ nblmHeaderKey h ∈ NOTEBOOKLM_MIN_FIELDS.map lowerStr) ∧
      (∀ values fields kwHeader,
        nblmRowBulletsLoop headers values fields kwHeader =
          fields.filterMap (fun h =>
            if kwHeader = some h then none
            else if stripWs (escapeMdCell (rowByHeaderGet headers values h)) = [] then none
            else some ("- **".toList ++ h ++ "**: ".toList ++
              nblmBulletValue (stripWs (escapeMdCell (rowByHeaderGet headers values h)))))) := by
  intro headers detail hdetail
  refine ⟨?_, ?_, fun hnd h => mem_nblmMatchedFields headers hnd h,
    fun values fields kwHeader => nblmRowBulletsLoop_eq headers values kwHeader fields⟩
  · intro hcond
    rw [nblmFields, if_neg hdetail, if_pos hcond]
  · intro hcond
    rw [nblmFields, if_neg hdetail, if_neg (by rw [hcond]; exact Bool.false_ne_true)]

/-- C8 witness: headers `["Volume", "Description"]` in minimal detail select
exactly the allowlist-matched `["Volume"]` (no fallback: a non-keyword column
matched). -/
theorem C8_minimal_fields_witness :
    nblmFields ["Volume".toList, "Description".toList] "minimal".toList =
      ["Volume".toList] :=
  ((C8_minimal_fields_selection_amended ["Volume".toList, "Description".toList]
      "minimal".toList (by decide)).2.1 (by decide)).trans (by decide)

/-- C9 counterexample: the claim promises a synthetic `Row N` heading for a
row whose keyword-column value is empty after trimming; the code emits the
Czech `Řádek N` instead. -/
theorem C9_empty_heading_is_radek_not_row :
    (nblmRowLines ["A".toList] ["A".toList] (headerMapGet ["A".toList] "keyword".toList)
          (nblmKeywordIdx ["A".toList]) 1 [[]]).headD [] = "### Řádek 1".toList ∧
      "### Řádek 1".toList ≠ "### Row 1".toList := by
  decide

/-- C9 (amended): the record heading is the value of the keyword column —
the column whose cleaned, lowercased header is `keyword`, the first column
when none matches —, escaped as for table cells and trimmed, with the Czech
synthetic heading `Řádek N` (N the 1-based position in final row order)
substituted when that value is empty after trimming. The second and third
conjuncts pin the column choice down: no matching header gives index 0, and
a unique matching header gives its position. -/
theorem C9_heading_selection_amended :
    ∀ (headers fields : List Str) (i : Nat) (row : List Str),
      headers ≠ [] →
      ((nblmRowLines headers fields (headerMapGet headers "keyword".toList)
          (nblmKeywordIdx headers) i row).headD [] =
        "### ".toList ++
          (if stripWs (escapeMdCell
              ((padTo headers.length row).getD (nblmKeywordIdx headers) [])) = []
            then "Řádek ".toList ++ natToStr i
            else stripWs (escapeMdCell
              ((padTo headers.length row).getD (nblmKeywordIdx headers) [])))) ∧
      ((∀ h ∈ headers, nblmHeaderKey h ≠ "keyword".toList) →
        nblmKeywordIdx headers = 0) ∧
      (∀ hstar, headers.filter (fun h => nblmHeaderKey h = "keyword".toList) = [hstar] →
        nblmKeywordIdx headers = headers.indexOf hstar) := by
  intro headers fields i row _hne
  refine ⟨?_, ?_, ?_⟩
  · rw [nblmRowLines]
    by_cases hkw : stripWs (escapeMdCell
        ((padTo headers.length row).getD (nblmKeywordIdx headers) [])) = []
    · rw [if_pos hkw]
      simp [hkw]
    · rw [if_neg hkw]
      simp [hkw]
  · intro hnone
    rw [nblmKeywordIdx, headerMapGet, List.filter_eq_nil_iff.mpr (by
      intro h hm
      simpa using hnone h hm)]
    rfl
  · intro hstar hfil
    have hmem : hstar ∈ headers := by
      have : hstar ∈ headers.filter (fun h => nblmHeaderKey h = "keyword".toList) := by
        rw [hfil]; exact List.mem_singleton.mpr rfl
      exact (List.mem_filter.mp this).1
    rw [nblmKeywordIdx, headerMapGet, hfil]
    show (if headers.contains hstar then headers.indexOf hstar else 0) = _
    rw [if_pos (List.elem_eq_true_of_mem hmem)]

/-- C9 witness: headers `["Keyword", "Volume"]` and row
`["seo tools", "1200"]` produce the heading `### seo tools`; the synthetic
branch is not taken because the keyword value is non-empty. -/
theorem C9_heading_selection_witness :
    (nblmRowLines ["Keyword".toList, "Volume".toList]
        (nblmFields ["Keyword".toList, "Volume".toList] "full".toList)
        (headerMapGet ["Keyword".toList, "Volume".toList] "keyword".toList)
        (nblmKeywordIdx ["Keyword".toList, "Volume".toList]) 1
        ["seo tools".toList, "1200".toList]).headD [] = "### seo tools".toList :=
  ((C9_heading_selection_amended ["Keyword".toList, "Volume".toList]
      (nblmFields ["Keyword".toList, "Volume".toList] "full".toList) 1
      ["seo tools".toList, "1200".toList] (by decide)).1).trans (by decide)
